import Mathlib

/-!
Schedule generator of `match.controller.js`

A shallow embedding of `generateMatchSchedule` and its helpers
(`generateMatchDate`, `generateMatchEndDate`, `shuffleArray`) from
`src/controllers/match.controller.js`, together with the part of the
`moment` date library the controller calls.

Conventions of the embedding:

* the local time zone is UTC, so the wall-clock time of a `moment` is the time
  value of its `Date`, in milliseconds; day `0` is 1970-01-01, a Thursday;
* a `Date` holds a time value between -8.64e15 and 8.64e15 ms and is
  `Invalid Date` beyond; an invalid moment or date is `none`;
* `Math.random()` and the clock `moment()` are oracles indexed by the number
  of the call that reads them;
* JavaScript arrays are lists; `null` is a distinguished value of the element
  type, passed as a parameter.
-/

namespace Futbolist

/-! ## The `moment` operations used by the controller -/

/-- Milliseconds in a day. -/
def msPerDay : Int := 86400000

/-- Milliseconds in an hour. -/
def msPerHour : Int := 3600000

/-- Milliseconds in a minute. -/
def msPerMinute : Int := 60000

/-- Largest time value of a `Date`, 100,000,000 days after the epoch; the smallest is
its negative. -/
def maxTime : Int := 8640000000000000

/-- A valid `moment` object (one for which `isValid()` holds): its time value in
milliseconds since 1970-01-01T00:00, inside the range of `Date`. An invalid moment, whose
`Date` is `Invalid Date`, is `none` in `Option Moment`. -/
structure Moment where
  ts : Int
  inRange : -maxTime ≤ ts ∧ ts ≤ maxTime

instance : DecidableEq Moment := fun a b =>
  decidable_of_iff (a.ts = b.ts) (by cases a; cases b; simp)

/-- The operation `TimeClip` followed by wrapping the `Date`: the moment with time value
`t`, invalid when `t` is outside the range of `Date`. Every setter of `Date` ends with
it. -/
def timeClip (t : Int) : Option Moment :=
  if h : -maxTime ≤ t ∧ t ≤ maxTime then some ⟨t, h⟩ else none

/-- The method `toDate()` of a moment that may be invalid: the time value of the `Date`,
`none` for `Invalid Date`. -/
def toDate (m : Option Moment) : Option Int := m.map (fun x => x.ts)

namespace Moment

/-- Number of the calendar day that contains the moment (days since 1970-01-01). -/
def dayNumber (m : Moment) : Int := m.ts / msPerDay

/-- The getter `day()`: day of week, `0` = Sunday .. `6` = Saturday. -/
def day (m : Moment) : Int := (m.dayNumber + 4) % 7

/-- The call `add(n, 'days')`, through `Date.prototype.setDate`; adding `0` changes
nothing, as in `moment`. -/
def addDays (m : Moment) (n : Int) : Option Moment := timeClip (m.ts + n * msPerDay)

/-- The call `add(n, 'weeks')`, that is `7 * n` days. -/
def addWeeks (m : Moment) (n : Int) : Option Moment := timeClip (m.ts + n * 7 * msPerDay)

/-- The call `add(n, 'hours')`, through `Date.prototype.setTime`. -/
def addHours (m : Moment) (n : Int) : Option Moment := timeClip (m.ts + n * msPerHour)

/-- The call `startOf('week')` in the default locale, whose week starts on Sunday:
midnight of the last Sunday on or before the moment. -/
def startOfWeek (m : Moment) : Option Moment := timeClip ((m.dayNumber - m.day) * msPerDay)

/-- The call `endOf('day')`: last millisecond of the calendar day. -/
def endOfDay (m : Moment) : Option Moment := timeClip (m.dayNumber * msPerDay + (msPerDay - 1))

/-- The setter `day(input)`: `this.add(input - this.day(), 'd')`. -/
def setDay (m : Moment) (input : Int) : Option Moment := m.addDays (input - m.day)

/-- The call `isBefore(other, 'day')` on two valid moments:
`this.clone().endOf('day').valueOf() < other.valueOf()`, which is false when the end of
the day is `NaN`. -/
def isBeforeDay (m other : Moment) : Bool :=
  match m.endOfDay with
  | some e => decide (e.ts < other.ts)
  | none => false

/-- The setter `hour(h)`: replaces the hour of the day, keeps minutes, seconds and
milliseconds. -/
def setHour (m : Moment) (h : Int) : Option Moment :=
  timeClip (m.dayNumber * msPerDay + h * msPerHour + m.ts % msPerHour)

/-- The setter `minute(v)`: replaces the minute of the hour, keeps seconds and
milliseconds. -/
def setMinute (m : Moment) (v : Int) : Option Moment :=
  timeClip ((m.ts / msPerHour) * msPerHour + v * msPerMinute + m.ts % msPerMinute)

end Moment

/-- Day names accepted by `isoWeekday`. -/
inductive DayName
  | Sunday | Monday | Tuesday | Wednesday | Thursday | Friday | Saturday
  deriving DecidableEq, Repr

/-- The locale function `weekdaysParse`: index of the day name, Sunday = 0. -/
def weekdaysParse : DayName → Int
  | .Sunday => 0
  | .Monday => 1
  | .Tuesday => 2
  | .Wednesday => 3
  | .Thursday => 4
  | .Friday => 5
  | .Saturday => 6

/-- The function `parseIsoWeekday` on a string: `weekdaysParse(input) % 7 || 7`. -/
def parseIsoWeekday (d : DayName) : Int :=
  if weekdaysParse d % 7 = 0 then 7 else weekdaysParse d % 7

/-- The setter `isoWeekday(input)`:
`this.day(this.day() % 7 ? weekday : weekday - 7)`. -/
def Moment.isoWeekday (m : Moment) (d : DayName) : Option Moment :=
  m.setDay (if m.day % 7 ≠ 0 then parseIsoWeekday d else parseIsoWeekday d - 7)

/-- The call `isBefore(now, 'day')` on a moment that may be invalid: false on an invalid
moment. -/
def isBefore (m : Option Moment) (now : Moment) : Bool :=
  match m with
  | some x => x.isBeforeDay now
  | none => false

/-! ## Helpers of the controller

The setters of `moment` leave an invalid moment as it is, so a chain of calls is a chain
of `Option.bind`. -/

/-- Line 162, `currentDate.clone().add(round, 'weeks').isoWeekday(day)`: the value of
`matchDate` before the past-date check. -/
def matchDateBeforeCheck (currentDate : Option Moment) (round : Nat) (day : DayName) :
    Option Moment :=
  (currentDate.bind (fun c => c.addWeeks round)).bind (fun c => c.isoWeekday day)

/-- Lines 164-166, the past-date check: a date on a day before the clock is moved one
week forward. -/
def pastDateCheck (now : Moment) (matchDate : Option Moment) : Option Moment :=
  if isBefore matchDate now then matchDate.bind (fun c => c.addWeeks 1) else matchDate

/-- Line 168, `matchDate.hour(Math.floor(Math.random() * 7) + 11).minute(0)`, with `rnd`
the value of `Math.floor(Math.random() * 7)`. -/
def setKickoff (rnd : Fin 7) (matchDate : Option Moment) : Option Moment :=
  (matchDate.bind (fun c => c.setHour ((rnd.val : Int) + 11))).bind (fun c => c.setMinute 0)

/-- The function `generateMatchDate(currentDate, round, day)`. The clock reading
`moment()` and the value of `Math.floor(Math.random() * 7)` of this call are the
arguments `now` and `rnd`. -/
def generateMatchDate (now : Moment) (rnd : Fin 7) (currentDate : Option Moment)
    (round : Nat) (day : DayName) : Option Moment :=
  setKickoff rnd (pastDateCheck now (matchDateBeforeCheck currentDate round day))

/-- The function `generateMatchEndDate(startDate)`. -/
def generateMatchEndDate (startDate : Option Moment) : Option Int :=
  toDate (startDate.bind (fun c => c.addHours 2))

/-- The destructuring swap `[a[i], a[j]] = [a[j], a[i]]`. -/
def swap {α : Type} (a : List α) (i j : Nat) : List α :=
  match a[i]?, a[j]? with
  | some x, some y => (a.set i y).set j x
  | _, _ => a

/-- The two arrays alive in `shuffleArray`: the argument and the copy being shuffled. -/
structure ShuffleState (α : Type) where
  array : List α
  shuffledArray : List α

/-- The loop `for (let i = ...; i > 0; i--)` of `shuffleArray`, entered with index `i`;
`draws i` is the value of `Math.floor(Math.random() * (i + 1))` at index `i`. -/
def shuffleLoop {α : Type} (draws : (i : Nat) → Fin (i + 1)) :
    Nat → ShuffleState α → ShuffleState α
  | 0, st => st
  | i + 1, st =>
    shuffleLoop draws i
      { st with shuffledArray := swap st.shuffledArray (i + 1) (draws (i + 1)).val }

/-- The state in which `shuffleArray(array)` returns. -/
def shuffleRun {α : Type} (draws : (i : Nat) → Fin (i + 1)) (array : List α) :
    ShuffleState α :=
  shuffleLoop draws (array.length - 1) { array := array, shuffledArray := array }

/-- The function `shuffleArray(array)`: its return value. -/
def shuffleArray {α : Type} (draws : (i : Nat) → Fin (i + 1)) (array : List α) : List α :=
  (shuffleRun draws array).shuffledArray

/-! ## The pairing loop of `generateMatchSchedule` -/

/-- A match object pushed to `matchesInRound`. The two dates are time values of `Date`
objects, `none` for `Invalid Date`. -/
structure Fixture (α : Type) where
  homeTeam : α
  awayTeam : α
  league : Nat
  season : Nat
  startDate : Option Int
  endDate : Option Int
  round : Option Nat
  deriving DecidableEq, Repr

/-- Oracles of one run: the clock and the kickoff-hour draws, indexed by the number of
the `generateMatchDate` call that reads them. -/
structure Env where
  now : Nat → Moment
  rnd : Nat → Fin 7

/-- The statement `teamss.splice(1, 0, teamss.pop())`: the last element is removed and
put back at index 1 (at the end when a single element is left). The statement runs only
inside the loop over `round`, whose body is entered only when `numTeams ≥ 2`; on the empty
array, which it never meets, the embedding leaves the array as it is. -/
def rotate {α : Type} (teamss : List α) : List α :=
  match teamss.getLast? with
  | none => teamss
  | some x => teamss.dropLast.take 1 ++ x :: teamss.dropLast.drop 1

/-- Variables of the loop over `round`; `matchesArr` is the array `matches`. -/
structure LoopState (α : Type) where
  teamss : List α
  currentDate : Option Moment
  matchesArr : List (List (Fixture α))

/-- One pass of the loop over `i`: the object pushed to `matchesInRound`. -/
def makeFixture {α : Type} (null : α) (env : Env) (league season : Nat)
    (numTeams numMatchesPerRound : Nat) (teamss : List α) (currentDate : Option Moment)
    (round i : Nat) : Fixture α :=
  let homeTeam := if round % 2 = 0 then teamss.getD i null
    else teamss.getD (numTeams - 1 - i) null
  let awayTeam := if round % 2 = 0 then teamss.getD (numTeams - 1 - i) null
    else teamss.getD i null
  let call := 2 * (round * numMatchesPerRound + i)
  let matchDateSaturday :=
    generateMatchDate (env.now call) (env.rnd call) currentDate round .Saturday
  let matchDateSunday :=
    generateMatchDate (env.now (call + 1)) (env.rnd (call + 1)) currentDate round .Sunday
  { homeTeam := homeTeam
    awayTeam := awayTeam
    league := league
    season := season
    startDate := if i % 2 = 0 then toDate matchDateSaturday else toDate matchDateSunday
    endDate := generateMatchEndDate (if i % 2 = 0 then matchDateSaturday else matchDateSunday)
    round := none }

/-- The body of the loop over `round`. -/
def roundBody {α : Type} (null : α) (env : Env) (league season : Nat)
    (numTeams numMatchesPerRound : Nat) (round : Nat) (st : LoopState α) : LoopState α :=
  let matchesInRound := (List.range numMatchesPerRound).map
    (makeFixture null env league season numTeams numMatchesPerRound st.teamss
      st.currentDate round)
  { teamss := rotate st.teamss
    matchesArr := st.matchesArr ++ [matchesInRound]
    currentDate := (st.currentDate.bind (fun c => c.addWeeks 1)).bind
      (fun c => c.isoWeekday .Saturday) }

/-- The loop variables after `n` passes of the loop over `round`. -/
def roundsLoop {α : Type} (null : α) (env : Env) (league season : Nat)
    (numTeams numMatchesPerRound : Nat) (init : LoopState α) : Nat → LoopState α
  | 0 => init
  | n + 1 => roundBody null env league season numTeams numMatchesPerRound n
      (roundsLoop null env league season numTeams numMatchesPerRound init n)

/-- The padding `if (teamss.length % 2 !== 0) teamss.push(null)`. -/
def padOdd {α : Type} (null : α) (teamss : List α) : List α :=
  if teamss.length % 2 ≠ 0 then teamss ++ [null] else teamss

/-- The loop variables when the loop over `round` is entered (lines 59-62 and 64-66). -/
def pairingInit {α : Type} (null : α) (shuffledTeams : List α) (startDate : Moment) :
    LoopState α :=
  { teamss := padOdd null shuffledTeams
    currentDate := startDate.startOfWeek.bind (fun c => c.isoWeekday .Saturday)
    matchesArr := [] }

/-- The loop variables of `generateMatchSchedule` after `n` passes of the loop over
`round`, with `numTeams = teamss.length` and `numMatchesPerRound = numTeams / 2`. -/
def pairingState {α : Type} (null : α) (env : Env) (league season : Nat)
    (shuffledTeams : List α) (startDate : Moment) (n : Nat) : LoopState α :=
  let numTeams := (padOdd null shuffledTeams).length
  roundsLoop null env league season numTeams (numTeams / 2)
    (pairingInit null shuffledTeams startDate) n

/-- Lines 59-115 of `generateMatchSchedule`: from the shuffled teams and the parsed
start date to the array `matches`, after `numRounds = numTeams - 1` passes. -/
def pairingLoop {α : Type} (null : α) (env : Env) (league season : Nat)
    (shuffledTeams : List α) (startDate : Moment) : List (List (Fixture α)) :=
  (pairingState null env league season shuffledTeams startDate
    ((padOdd null shuffledTeams).length - 1)).matchesArr

/-! ## Persistence and the Round records -/

/-- A document returned by `Match.insertMany`: the inserted object with its `_id`.
The counter `roundWrites` is bookkeeping of the embedding: the number of times the
assignment `match.round = ...` ran on this document. -/
structure MatchDoc (α : Type) extends Fixture α where
  _id : Nat
  roundWrites : Nat
  deriving DecidableEq, Repr

/-- A `Round` document. The template string of `name` is kept as its two holes:
the round number and the date that is formatted. -/
structure RoundDoc where
  _id : Nat
  nameNumber : Nat
  nameDate : Option Int
  startDate : Option Int
  endDate : Option Int
  season : Nat
  league : Nat
  matchIds : List Nat
  deriving DecidableEq, Repr

/-- The call `Match.insertMany(flattenedMatches)` when it resolves: the documents in
input order, the one at position `k` with `_id` equal to `matchId k`. -/
def insertMany {α : Type} (matchId : Nat → Nat) (flattenedMatches : List (Fixture α)) :
    List (MatchDoc α) :=
  flattenedMatches.enum.map (fun p => { toFixture := p.2, _id := matchId p.1, roundWrites := 0 })

/-- The call `arr.slice(a, b)` for indices `0 ≤ a`, `0 ≤ b`. -/
def slice {α : Type} (arr : List α) (a b : Nat) : List α := (arr.take b).drop a

/-- The assignment `match.round = round._id` on one document. The call `match.save()`
that follows is not awaited and the handler never looks at its outcome. -/
def assignRound {α : Type} (roundId : Nat) (m : MatchDoc α) : MatchDoc α :=
  { m with round := some roundId, roundWrites := m.roundWrites + 1 }

/-- Variables of the loop that builds the Round records: the documents `newMatches`
(mutated by the callback of `map`) and the array `rounds`. -/
structure BuildState (α : Type) where
  newMatches : List (MatchDoc α)
  rounds : List RoundDoc

/-- The body of the loop `for (let i = 0; i < matches.length; i++)`; `none` when an
element of `flattenedMatches` that is read does not exist (a `TypeError` is thrown).
`roundId i` is the `_id` that `new Round` gives the document built in pass `i`. The loop
is reached only with `teams.length = 16`, so `teams.length / 2` is a whole number. -/
def buildRoundBody {α : Type} (roundId : Nat → Nat) (league season teamsLength : Nat)
    (flattenedMatches : List (Fixture α)) (i : Nat) (st : BuildState α) :
    Option (BuildState α) :=
  let lo := i * (teamsLength / 2)
  let hi := (i + 1) * (teamsLength / 2)
  if hi = 0 then none else
  match flattenedMatches[lo]?, flattenedMatches[hi - 1]? with
  | some first, some last =>
    let round : RoundDoc :=
      { _id := roundId i
        nameNumber := i + 1
        nameDate := first.startDate
        startDate := first.startDate
        endDate := last.endDate
        season := season
        league := league
        matchIds := [] }
    let touched := (slice st.newMatches lo hi).map (assignRound round._id)
    some
      { newMatches := st.newMatches.take lo ++ touched ++ st.newMatches.drop hi
        rounds := st.rounds ++ [{ round with matchIds := touched.map (fun m => m._id) }] }
  | _, _ => none

/-- The loop variables after `n` passes of the loop that builds the Round records. -/
def buildRounds {α : Type} (roundId : Nat → Nat) (league season teamsLength : Nat)
    (flattenedMatches : List (Fixture α)) (init : BuildState α) : Nat → Option (BuildState α)
  | 0 => some init
  | n + 1 =>
    (buildRounds roundId league season teamsLength flattenedMatches init n).bind
      (buildRoundBody roundId league season teamsLength flattenedMatches n)

/-! ## The request handler -/

/-- What the handler reads from a request that has a body: `req.params.id`,
`req.body.seasonId` and `moment(req.body?.startDate)`, which is `none` when `isValid()` is
false. -/
structure Request where
  id : Nat
  seasonId : Nat
  startDate : Option Moment

/-- Everything outside the handler: the results of the database calls (`none` for a
rejected promise), the identifiers handed out, and the oracles. -/
structure World (α : Type) where
  null : α
  league : Option Bool
  teams : Option (List α)
  draws : (i : Nat) → Fin (i + 1)
  env : Env
  matchId : Option (Nat → Nat)
  roundId : Nat → Nat
  roundInsert : Bool
  populate : Bool

/-- Body of a JSON response. -/
inductive Body (α : Type)
  | message (text : String)
  | docs (populatedMatches : List (MatchDoc α))

/-- Outcome of the handler: `res.status(code).json(body)` or `next(error)`. -/
inductive Response (α : Type)
  | json (status : Nat) (body : Body α)
  | next

/-- Everything `generateMatchSchedule` has built when it reaches line 154. -/
structure Schedule (α : Type) where
  matchesArr : List (List (Fixture α))
  flattenedMatches : List (Fixture α)
  newMatches : List (MatchDoc α)
  rounds : List RoundDoc

/-- Lines 57-147 of `generateMatchSchedule`, for teams and a start date that passed the
checks; `none` when an exception is thrown or a promise is rejected on the way. -/
def buildSchedule {α : Type} (w : World α) (req : Request) (teams : List α)
    (startDate : Moment) : Option (Schedule α) :=
  let shuffledTeams := shuffleArray w.draws teams
  let matchesArr := pairingLoop w.null w.env req.id req.seasonId shuffledTeams startDate
  let flattenedMatches := matchesArr.flatten
  match w.matchId with
  | none => none
  | some matchId =>
    let newMatches := insertMany matchId flattenedMatches
    match buildRounds w.roundId req.id req.seasonId teams.length flattenedMatches
        { newMatches := newMatches, rounds := [] } matchesArr.length with
    | none => none
    | some st =>
      if w.roundInsert then
        some
          { matchesArr := matchesArr
            flattenedMatches := flattenedMatches
            newMatches := st.newMatches
            rounds := st.rounds }
      else none

/-- The handler `generateMatchSchedule(req, res, next)`. -/
def generateMatchSchedule {α : Type} (w : World α) (req : Request) : Response α :=
  match w.league with
  | none => .next
  | some false => .json 404 (.message "League not found")
  | some true =>
    match w.teams with
    | none => .next
    | some teams =>
      if teams.length < 2 then
        .json 404 (.message "Not enough teams found to generate schedule")
      else
        match req.startDate with
        | none => .json 400 (.message "Invalid start date")
        | some startDate =>
          if teams.length ≠ 16 then
            .json 400 (.message "Number of teams must be 16 for this schedule")
          else
            match buildSchedule w req teams startDate with
            | none => .next
            | some s => if w.populate then .json 201 (.docs s.newMatches) else .next

/-! ## Auxiliary definitions for the statements -/

/-- The shuffled copy alone, as a function of the loop index and the copy. -/
def shuf {α : Type} (draws : (i : Nat) → Fin (i + 1)) : Nat → List α → List α
  | 0, a => a
  | i + 1, a => shuf draws i (swap a (i + 1) (draws (i + 1)).val)

/-- The fixture of slot `i` in round `r` of the array `matches`. -/
def fixtureAt {α : Type} (matchesArr : List (List (Fixture α))) (r i : Nat) :
    Option (Fixture α) :=
  (matchesArr[r]?).bind (fun round => round[i]?)

/-- Day number of the Saturday that line 60 stores in `currentDate`: the day before the
Sunday that starts the week of `startDate`. -/
def anchorDay (startDate : Moment) : Int := startDate.dayNumber - startDate.day - 1

/-- Day on which the fixture of slot `i` in round `r` is first placed, before the
past-date check: the anchor Saturday `D`, plus `r` weeks from `currentDate` and `r` more
from `generateMatchDate`, plus one day for an odd slot. -/
def baseDay (D : Int) (r i : Nat) : Int := D + 14 * r + (i % 2 : Nat)

/-- Number of the `generateMatchDate` call whose result dates slot `i` of round `r`. -/
def dateCall (m r i : Nat) : Nat := 2 * (r * m + i) + i % 2

/-- The time value `generateMatchDate` arrives at for slot `i` of round `r`, before it is
clipped to the range of `Date`: the base day, moved by a week when it is before the day of
the clock, at the kickoff hour drawn for the slot. -/
def kickoff (env : Env) (m : Nat) (D : Int) (r i : Nat) : Int :=
  (baseDay D r i + (if baseDay D r i < (env.now (dateCall m r i)).dayNumber then 7 else 0))
      * msPerDay
    + (((env.rnd (dateCall m r i)).val : Int) + 11) * msPerHour

/-- The time value `t` as a `Date`: `none` (`Invalid Date`) outside the range. -/
def clipInt (t : Int) : Option Int := if -maxTime ≤ t ∧ t ≤ maxTime then some t else none

/-- The day name that line 101 picks for slot `i`: Saturday for even slots, Sunday for
odd ones. -/
def slotDay (i : Nat) : DayName := if i % 2 = 0 then .Saturday else .Sunday

/-- The Round record that pass `k` of the loop at lines 123-145 is expected to build,
with `h` fixtures per round: dates taken from the first and the last fixture of the
`k`-th group of `h` consecutive elements of `flattenedMatches`, and the ids of the
documents at these positions, in order. -/
def roundRecord {α : Type} (roundId matchId : Nat → Nat) (league season h : Nat)
    (flattenedMatches : List (Fixture α)) (k : Nat) : RoundDoc :=
  { _id := roundId k
    nameNumber := k + 1
    nameDate := flattenedMatches[k * h]?.bind (fun f => f.startDate)
    startDate := flattenedMatches[k * h]?.bind (fun f => f.startDate)
    endDate := flattenedMatches[(k + 1) * h - 1]?.bind (fun f => f.endDate)
    season := season
    league := league
    matchIds := (List.range h).map (fun j => matchId (k * h + j)) }

/-- The status code of a response, `none` when the handler called `next(error)`. -/
def Response.status? {α : Type} : Response α → Option Nat
  | .json status _ => some status
  | .next => none

/-- Index, in the array `teamss` before the first rotation, of the element that stands
at position `p` after `r` rotations, for an array of `M + 1` elements: position 0 is
never moved and the other `M` positions turn in a circle. -/
def sourceIndex (M r p : Nat) : Nat := if p = 0 then 0 else 1 + (p - 1 + M - r) % M

/-- The unordered pair of teams that meet in a fixture. -/
def fixturePair {α : Type} (f : Fixture α) : Sym2 α := s(f.homeTeam, f.awayTeam)

/-! ## Sample inputs -/

/-- Monday 2024-01-01, 00:00, as a start date. -/
def monday : Moment := ⟨19723 * 86400000, by decide⟩

/-- Saturday of the year 275760 whose time value is 8639999395200000, one week before
the last day a `Date` can hold; a valid start date. -/
def farSaturday : Moment := ⟨8639999395200000, by decide⟩

/-- Sixteen teams, numbered. -/
def sixteen : List Nat := List.range 16

/-- A run whose clock stands at Monday 2023-12-25, 00:00, a week before `monday`, and
whose kickoff draws are all `0`. -/
def earlyEnv : Env := { now := fun _ => ⟨19716 * 86400000, by decide⟩, rnd := fun _ => 0 }

/-- A run whose clock stands at Wednesday 2024-01-31, 12:00, thirty days after `monday`,
and whose kickoff draws are all `0`. -/
def lateEnv : Env :=
  { now := fun _ => ⟨19753 * 86400000 + 43200000, by decide⟩, rnd := fun _ => 0 }

/-- A run whose clock stands at Monday 2024-01-01, 09:00, the day of `monday`, and whose
kickoff draws are all `0`. -/
def startDayEnv : Env :=
  { now := fun _ => ⟨19723 * 86400000 + 32400000, by decide⟩, rnd := fun _ => 0 }

/-- A run whose clock stands at Monday 2023-12-25, 00:00 and whose first kickoff draw is
`6` (17:00) while all later draws are `0` (11:00). -/
def unevenKickoffEnv : Env :=
  { now := fun _ => ⟨19716 * 86400000, by decide⟩, rnd := fun k => if k = 0 then 6 else 0 }

/-- A world in which every database call succeeds: the league exists and has the sixteen
teams of `sixteen`. -/
def sampleWorld : World Nat :=
  { null := 0
    league := some true
    teams := some sixteen
    draws := fun _ => 0
    env := earlyEnv
    matchId := some (fun k => 1000 + k)
    roundId := fun k => 2000 + k
    roundInsert := true
    populate := true }

/-- The world `sampleWorld` with the kickoff draws of `unevenKickoffEnv`. -/
def unevenKickoffWorld : World Nat := { sampleWorld with env := unevenKickoffEnv }

/-- The world `sampleWorld` with a league of one team. -/
def oneTeamWorld : World Nat := { sampleWorld with teams := some [0] }

/-- A request with a valid start date, Monday 2024-01-01. -/
def sampleRequest : Request := { id := 1, seasonId := 1, startDate := some monday }

/-! ## Facts about `shuffleArray` -/

theorem shuffleLoop_array {α : Type} (draws : (i : Nat) → Fin (i + 1)) (i : Nat)
    (st : ShuffleState α) : (shuffleLoop draws i st).array = st.array := by
  induction i generalizing st with
  | zero => rfl
  | succ i ih => simp [shuffleLoop, ih]

theorem shuffleLoop_shuffledArray {α : Type} (draws : (i : Nat) → Fin (i + 1)) (i : Nat)
    (st : ShuffleState α) :
    (shuffleLoop draws i st).shuffledArray = shuf draws i st.shuffledArray := by
  induction i generalizing st with
  | zero => rfl
  | succ i ih => simp [shuffleLoop, shuf, ih]

theorem shuffleArray_eq_shuf {α : Type} (draws : (i : Nat) → Fin (i + 1)) (array : List α) :
    shuffleArray draws array = shuf draws (array.length - 1) array := by
  simp [shuffleArray, shuffleRun, shuffleLoop_shuffledArray]

theorem set_concat_perm {α : Type} (x : α) :
    ∀ (p : List α) (j : Nat) (h : j < p.length), (p.set j x ++ [p[j]]).Perm (p ++ [x])
  | [], j, h => by simp at h
  | a :: t, 0, _ => by
    simp only [List.set_cons_zero, List.getElem_cons_zero, List.cons_append]
    exact ((List.perm_append_singleton a t).cons x).trans
      ((List.Perm.swap a x t).trans ((List.perm_append_singleton x t).symm.cons a))
  | a :: t, j + 1, h => by
    simp only [List.set_cons_succ, List.getElem_cons_succ, List.cons_append]
    exact (set_concat_perm x t j (by simpa using h)).cons a

theorem swap_last_self {α : Type} (p : List α) (x : α) :
    swap (p ++ [x]) p.length p.length = p ++ [x] := by
  simp [swap]

theorem swap_last_lt {α : Type} (p : List α) (x : α) (j : Nat) (h : j < p.length) :
    swap (p ++ [x]) p.length j = p.set j x ++ [p[j]] := by
  have h1 : (p ++ [x])[p.length]? = some x := by simp
  have h2 : (p ++ [x])[j]? = some p[j] := by
    rw [List.getElem?_append_left h]; simp [h]
  simp only [swap, h1, h2]
  rw [List.set_append_right _ _ (le_refl _)]
  simp [List.set_append_left, h]

theorem swap_append_left {α : Type} (p s : List α) (i j : Nat) (hi : i < p.length)
    (hj : j < p.length) : swap (p ++ s) i j = swap p i j ++ s := by
  have h1 : (p ++ s)[i]? = some p[i] := by rw [List.getElem?_append_left hi]; simp [hi]
  have h2 : (p ++ s)[j]? = some p[j] := by rw [List.getElem?_append_left hj]; simp [hj]
  have h3 : p[i]? = some p[i] := by simp [hi]
  have h4 : p[j]? = some p[j] := by simp [hj]
  simp only [swap, h1, h2, h3, h4]
  rw [List.set_append_left _ _ hi, List.set_append_left _ _ (by simpa using hj)]

theorem swap_length {α : Type} (a : List α) (i j : Nat) : (swap a i j).length = a.length := by
  unfold swap
  split <;> simp

theorem shuf_length {α : Type} (draws : (i : Nat) → Fin (i + 1)) (i : Nat) (a : List α) :
    (shuf draws i a).length = a.length := by
  induction i generalizing a with
  | zero => rfl
  | succ i ih => simp [shuf, ih, swap_length]

theorem shuf_append {α : Type} (draws : (i : Nat) → Fin (i + 1)) (i : Nat) (p s : List α)
    (h : i < p.length) : shuf draws i (p ++ s) = shuf draws i p ++ s := by
  induction i generalizing p with
  | zero => rfl
  | succ i ih =>
    have hj : (draws (i + 1)).val < p.length := by
      have := (draws (i + 1)).isLt
      omega
    simp only [shuf]
    rw [swap_append_left p s (i + 1) _ h hj]
    exact ih _ (by rw [swap_length]; omega)

/-- The first pass on a list whose last index is the loop index: the last cell
receives the drawn element and is never written again. -/
theorem swap_last_split {α : Type} (p : List α) (x : α) (j : Nat) (hj : j ≤ p.length) :
    ∃ q, swap (p ++ [x]) p.length j = q ++ [(p ++ [x])[j]?.getD x] ∧ q.length = p.length ∧
      (q ++ [(p ++ [x])[j]?.getD x]).Perm (p ++ [x]) := by
  rcases Nat.lt_or_ge j p.length with h | h
  · refine ⟨p.set j x, ?_, by simp, ?_⟩
    · rw [swap_last_lt p x j h, List.getElem?_append_left h]; simp [h]
    · rw [List.getElem?_append_left h]
      simpa [h] using set_concat_perm x p j h
  · have hj2 : j = p.length := by omega
    subst hj2
    exact ⟨p, by simp [swap_last_self], rfl, by simp⟩

theorem shuf_congr {α : Type} (d1 d2 : (i : Nat) → Fin (i + 1)) (i : Nat) (a : List α)
    (h : ∀ k, 1 ≤ k → k ≤ i → d1 k = d2 k) : shuf d1 i a = shuf d2 i a := by
  induction i generalizing a with
  | zero => rfl
  | succ i ih =>
    simp only [shuf]
    rw [h (i + 1) (by omega) (le_refl _)]
    exact ih _ (fun k h1 h2 => h k h1 (by omega))

theorem shuf_perm {α : Type} (draws : (i : Nat) → Fin (i + 1)) (i : Nat) (a : List α)
    (h : a.length = i + 1) : (shuf draws i a).Perm a := by
  induction i generalizing a with
  | zero => exact List.Perm.refl _
  | succ i ih =>
    obtain ⟨p, x, rfl⟩ : ∃ p x, a = p ++ [x] := by
      have hne : a ≠ [] := by intro h0; simp [h0] at h
      exact ⟨a.dropLast, a.getLast hne, (List.dropLast_append_getLast hne).symm⟩
    have hp : p.length = i + 1 := by simpa using h
    obtain ⟨q, hq, hql, hqp⟩ := swap_last_split p x (draws (i + 1)).val
      (by have := (draws (i + 1)).isLt; omega)
    rw [hp] at hq
    simp only [shuf]
    rw [hq, shuf_append draws i q _ (by omega)]
    exact ((ih q (by omega)).append_right _).trans hqp

theorem exists_concat_of_length {α : Type} (a : List α) (n : Nat) (h : a.length = n + 1) :
    ∃ p x, a = p ++ [x] ∧ p.length = n := by
  have hne : a ≠ [] := by intro h0; simp [h0] at h
  refine ⟨a.dropLast, a.getLast hne, (List.dropLast_append_getLast hne).symm, ?_⟩
  simp [h]

theorem shuf_injective {α : Type} (d1 d2 : (i : Nat) → Fin (i + 1)) :
    ∀ (n : Nat) (a : List α), a.length = n + 1 → a.Nodup → shuf d1 n a = shuf d2 n a →
      ∀ k, 1 ≤ k → k ≤ n → d1 k = d2 k := by
  intro n
  induction n with
  | zero => intro a _ _ _ k h1 h2; omega
  | succ n ih =>
    intro a hlen hnd heq k hk1 hk2
    obtain ⟨p, x, rfl, hp⟩ := exists_concat_of_length a (n + 1) hlen
    have hj1 := (d1 (n + 1)).isLt
    have hj2 := (d2 (n + 1)).isLt
    obtain ⟨q1, hq1, hql1, hqp1⟩ := swap_last_split p x (d1 (n + 1)).val (by omega)
    obtain ⟨q2, hq2, hql2, _⟩ := swap_last_split p x (d2 (n + 1)).val (by omega)
    rw [hp] at hq1 hq2
    simp only [shuf] at heq
    rw [hq1, hq2, shuf_append d1 n q1 _ (by omega), shuf_append d2 n q2 _ (by omega)] at heq
    have hl : (shuf d1 n q1).length = (shuf d2 n q2).length := by
      rw [shuf_length, shuf_length]; omega
    obtain ⟨hs, hy⟩ := List.append_inj heq hl
    have hb1 : (d1 (n + 1)).val < (p ++ [x]).length := by simp; omega
    have hb2 : (d2 (n + 1)).val < (p ++ [x]).length := by simp; omega
    have hval : (d1 (n + 1)).val = (d2 (n + 1)).val := by
      have e1 : (p ++ [x])[(d1 (n + 1)).val]? = some (p ++ [x])[(d1 (n + 1)).val] :=
        List.getElem?_eq_getElem hb1
      have e2 : (p ++ [x])[(d2 (n + 1)).val]? = some (p ++ [x])[(d2 (n + 1)).val] :=
        List.getElem?_eq_getElem hb2
      rw [e1, e2] at hy
      simp only [Option.getD_some, List.cons.injEq, and_true] at hy
      exact (List.Nodup.getElem_inj_iff hnd).mp hy
    have hd : d1 (n + 1) = d2 (n + 1) := Fin.ext hval
    rcases Nat.lt_or_ge k (n + 1) with hlt | hge
    · have hqq : q1 = q2 := by
        rw [hval] at hq1
        rw [hq1] at hq2
        exact (List.append_inj hq2 (by omega)).1
      subst hqq
      have hndq : q1.Nodup := by
        have := (List.Perm.nodup_iff hqp1).mpr hnd
        exact (List.nodup_append.mp this).1
      exact ih q1 (by omega) hndq hs k hk1 (by omega)
    · have hk : k = n + 1 := by omega
      subst hk
      exact hd

theorem shuf_surjective {α : Type} :
    ∀ (n : Nat) (a target : List α), a.length = n + 1 → target.Perm a →
      ∃ d : (i : Nat) → Fin (i + 1), shuf d n a = target := by
  intro n
  induction n with
  | zero =>
    intro a target hlen hperm
    refine ⟨fun _ => 0, ?_⟩
    obtain ⟨p, x, rfl, hp⟩ := exists_concat_of_length a 0 hlen
    have : p = [] := List.length_eq_zero.mp hp
    subst this
    simpa [shuf] using (List.perm_singleton.mp hperm).symm
  | succ n ih =>
    intro a target hlen hperm
    obtain ⟨p, x, rfl, hp⟩ := exists_concat_of_length a (n + 1) hlen
    obtain ⟨t, y, rfl, ht⟩ := exists_concat_of_length target (n + 1) (by rw [hperm.length_eq, hlen])
    have hy : y ∈ p ++ [x] := hperm.subset (by simp)
    obtain ⟨j, hj, hjy⟩ := List.getElem_of_mem hy
    have hj2 : j < n + 1 + 1 := by simpa [hp] using hj
    obtain ⟨q, hq, hql, hqp⟩ := swap_last_split p x j (by omega)
    have e1 : (p ++ [x])[j]? = some y := by rw [List.getElem?_eq_getElem hj, hjy]
    rw [e1, Option.getD_some, hp] at hq
    rw [e1, Option.getD_some] at hqp
    have htq : t.Perm q := (List.perm_append_right_iff [y]).mp (hperm.trans hqp.symm)
    obtain ⟨d, hd⟩ := ih q t (by omega) htq
    refine ⟨fun i => if h : i = n + 1 then ⟨j, by omega⟩ else d i, ?_⟩
    simp only [shuf, dite_true]
    rw [hq, shuf_append _ n q _ (by omega)]
    rw [shuf_congr _ d n q (fun k _ hk => by
      have : ¬ k = n + 1 := by omega
      simp [this]), hd]

/-! ## Shape of the array `matches` -/

theorem roundsLoop_teamss {α : Type} (null : α) (env : Env) (league season N m : Nat)
    (init : LoopState α) (n : Nat) :
    (roundsLoop null env league season N m init n).teamss = Nat.iterate rotate n init.teamss := by
  induction n with
  | zero => rfl
  | succ n ih =>
    rw [Function.iterate_succ_apply']
    simp [roundsLoop, roundBody, ih]

theorem roundsLoop_matchesArr {α : Type} (null : α) (env : Env) (league season N m : Nat)
    (init : LoopState α) (n : Nat) :
    (roundsLoop null env league season N m init n).matchesArr =
      init.matchesArr ++ (List.range n).map (fun k =>
        (List.range m).map (makeFixture null env league season N m
          (roundsLoop null env league season N m init k).teamss
          (roundsLoop null env league season N m init k).currentDate k)) := by
  induction n with
  | zero => simp [roundsLoop]
  | succ n ih =>
    simp only [roundsLoop, roundBody, ih, List.range_succ, List.map_append, List.map_cons,
      List.map_nil, List.append_assoc]

theorem pairingLoop_eq {α : Type} (null : α) (env : Env) (league season : Nat)
    (shuffledTeams : List α) (startDate : Moment) :
    pairingLoop null env league season shuffledTeams startDate =
      (List.range ((padOdd null shuffledTeams).length - 1)).map (fun k =>
        (List.range ((padOdd null shuffledTeams).length / 2)).map
          (makeFixture null env league season (padOdd null shuffledTeams).length
            ((padOdd null shuffledTeams).length / 2)
            (pairingState null env league season shuffledTeams startDate k).teamss
            (pairingState null env league season shuffledTeams startDate k).currentDate k)) := by
  simp [pairingLoop, pairingState, roundsLoop_matchesArr, pairingInit]

theorem pairingLoop_length {α : Type} (null : α) (env : Env) (league season : Nat)
    (shuffledTeams : List α) (startDate : Moment) :
    (pairingLoop null env league season shuffledTeams startDate).length =
      (padOdd null shuffledTeams).length - 1 := by
  simp [pairingLoop_eq]

theorem pairingLoop_getElem? {α : Type} (null : α) (env : Env) (league season : Nat)
    (shuffledTeams : List α) (startDate : Moment) (r : Nat)
    (hr : r < (padOdd null shuffledTeams).length - 1) :
    (pairingLoop null env league season shuffledTeams startDate)[r]? =
      some ((List.range ((padOdd null shuffledTeams).length / 2)).map
          (makeFixture null env league season (padOdd null shuffledTeams).length
            ((padOdd null shuffledTeams).length / 2)
            (pairingState null env league season shuffledTeams startDate r).teamss
            (pairingState null env league season shuffledTeams startDate r).currentDate r)) := by
  rw [pairingLoop_eq, List.getElem?_map, List.getElem?_range hr]
  rfl

theorem padOdd_of_even {α : Type} (null : α) (teamss : List α) (h : teamss.length % 2 = 0) :
    padOdd null teamss = teamss := by
  simp [padOdd, h]

/-! ## Dates of the fixtures -/

theorem toDate_timeClip (t : Int) : toDate (timeClip t) = clipInt t := by
  unfold timeClip clipInt toDate
  split <;> rfl

theorem clip_cases (x : Option Moment) (t : Int) (h : toDate x = clipInt t) :
    (x = none ∧ ¬ (-maxTime ≤ t ∧ t ≤ maxTime)) ∨
      (∃ m, x = some m ∧ m.ts = t ∧ -maxTime ≤ t ∧ t ≤ maxTime) := by
  unfold clipInt at h
  split at h
  · next hr =>
    cases x with
    | none => simp [toDate] at h
    | some m =>
      refine Or.inr ⟨m, rfl, ?_, hr⟩
      simpa [toDate] using h
  · next hr =>
    cases x with
    | none => exact Or.inl ⟨rfl, hr⟩
    | some m => simp [toDate] at h

theorem clipInt_of_inRange (t : Int) (h : -maxTime ≤ t ∧ t ≤ maxTime) : clipInt t = some t :=
  if_pos h

theorem clipInt_of_not (t : Int) (h : ¬ (-maxTime ≤ t ∧ t ≤ maxTime)) : clipInt t = none :=
  if_neg h

theorem isBeforeDay_iff (p now : Moment) :
    p.isBeforeDay now = true ↔ p.dayNumber < now.dayNumber := by
  have hn := now.inRange
  have hp := p.inRange
  rcases clip_cases p.endOfDay _ (toDate_timeClip _) with ⟨h1, hb⟩ | ⟨m, h1, e, hb⟩
  · simp only [Moment.isBeforeDay, h1]
    simp only [Moment.dayNumber, msPerDay, maxTime] at *
    constructor
    · intro h; cases h
    · intro h; omega
  · simp only [Moment.isBeforeDay, h1, decide_eq_true_eq, e]
    simp only [Moment.dayNumber, msPerDay, maxTime] at *
    omega

theorem pastDateCheck_none (now : Moment) : pastDateCheck now none = none := rfl

theorem setKickoff_none (rnd : Fin 7) : setKickoff rnd none = none := rfl

theorem pastDateCheck_some (now p : Moment) :
    toDate (pastDateCheck now (some p)) =
      if p.dayNumber < now.dayNumber then clipInt (p.ts + 7 * msPerDay) else some p.ts := by
  have e : pastDateCheck now (some p) =
      if p.isBeforeDay now = true then p.addWeeks 1 else some p := rfl
  rw [e]
  by_cases h : p.dayNumber < now.dayNumber
  · rw [if_pos h, (isBeforeDay_iff p now).mpr h, if_pos rfl]
    show toDate (timeClip _) = _
    rw [toDate_timeClip, one_mul]
  · have hb : p.isBeforeDay now = false := by
      cases hx : p.isBeforeDay now
      · rfl
      · exact absurd ((isBeforeDay_iff p now).mp hx) h
    rw [if_neg h, hb]
    rfl

theorem setKickoff_some (rnd : Fin 7) (q : Moment) :
    toDate (setKickoff rnd (some q)) =
      if q.dayNumber * msPerDay + ((rnd.val : Int) + 11) * msPerHour + q.ts % msPerHour
          ≤ maxTime then
        some (q.dayNumber * msPerDay + ((rnd.val : Int) + 11) * msPerHour + q.ts % msPerMinute)
      else none := by
  have hr := rnd.isLt
  have hq := q.inRange
  unfold setKickoff
  rw [Option.some_bind]
  rcases clip_cases (q.setHour ((rnd.val : Int) + 11)) _ (toDate_timeClip _) with
    ⟨h1, hb⟩ | ⟨m, h1, e, hb⟩
  · rw [h1, Option.none_bind, if_neg]
    · rfl
    · simp only [Moment.dayNumber, msPerDay, msPerHour, maxTime] at *
      omega
  · rw [h1, Option.some_bind]
    show toDate (timeClip _) = _
    rw [toDate_timeClip, e, if_pos hb.2, clipInt_of_inRange]
    · congr 1
      simp only [Moment.dayNumber, msPerDay, msPerHour, msPerMinute]
      omega
    · simp only [Moment.dayNumber, msPerDay, msPerHour, msPerMinute, maxTime] at *
      omega

/-- The date of a fixture, given the date before the past-date check: its day is that of
the earlier date, or seven days later when that day is before the day of the clock. -/
theorem generateMatchDate_day (now : Moment) (rnd : Fin 7) (cd : Option Moment) (round : Nat)
    (day : DayName) (pre : Moment) (s : Int)
    (hpre : matchDateBeforeCheck cd round day = some pre)
    (hs : toDate (generateMatchDate now rnd cd round day) = some s) :
    s / msPerDay = pre.dayNumber + (if pre.dayNumber < now.dayNumber then 7 else 0) := by
  have hr := rnd.isLt
  have hp := pre.inRange
  unfold generateMatchDate at hs
  rw [hpre] at hs
  have h1 := pastDateCheck_some now pre
  cases hq : pastDateCheck now (some pre) with
  | none => rw [hq, setKickoff_none] at hs; cases hs
  | some q =>
    rw [hq] at hs h1
    rw [setKickoff_some] at hs
    have hqts : q.ts = pre.ts + (if pre.dayNumber < now.dayNumber then 7 else 0) * msPerDay := by
      by_cases hb : pre.dayNumber < now.dayNumber
      · rw [if_pos hb] at h1 ⊢
        unfold clipInt at h1
        split at h1
        · simpa [toDate] using h1
        · simp [toDate] at h1
      · rw [if_neg hb] at h1 ⊢
        simpa [toDate] using h1
    split at hs
    · have hs' : q.dayNumber * msPerDay + ((rnd.val : Int) + 11) * msPerHour +
          q.ts % msPerMinute = s := Option.some.inj hs
      rw [← hs']
      simp only [Moment.dayNumber, msPerDay, msPerHour, msPerMinute] at *
      split at hqts <;> split <;> omega
    · cases hs

theorem matchDateBeforeCheck_none (round : Nat) (day : DayName) :
    matchDateBeforeCheck none round day = none := rfl

/-- The date before the past-date check when `currentDate` is the midnight that begins a
Saturday: `n` weeks later, and one more day for Sunday. -/
theorem matchDateBeforeCheck_saturday (c : Moment) (D : Int) (round : Nat) (i : Nat)
    (h : c.ts = D * msPerDay) (hs : (D + 4) % 7 = 6) :
    toDate (matchDateBeforeCheck (some c) round (slotDay i)) =
      clipInt ((D + 7 * round + (i % 2 : Nat)) * msPerDay) := by
  have hc := c.inRange
  have hi2 : i % 2 < 2 := Nat.mod_lt _ (by decide)
  have e : matchDateBeforeCheck (some c) round (slotDay i) =
      (c.addWeeks round).bind (fun x => x.isoWeekday (slotDay i)) := rfl
  rw [e]
  rcases clip_cases (c.addWeeks round) _ (toDate_timeClip _) with ⟨h1, hb⟩ | ⟨m, h1, e1, hb⟩
  · rw [h1, Option.none_bind, clipInt_of_not]
    · rfl
    · simp only [msPerDay, maxTime] at *
      omega
  · rw [h1, Option.some_bind]
    show toDate (timeClip _) = _
    rw [toDate_timeClip]
    congr 1
    simp only [Moment.day, Moment.dayNumber, parseIsoWeekday, weekdaysParse, slotDay, e1, h,
      msPerDay] at *
    rcases Nat.mod_two_eq_zero_or_one i with h2 | h2
    · simp only [h2, if_true]
      split <;> (try split) <;> simp at * <;> omega
    · simp only [h2]
      split <;> (try split) <;> simp at * <;> omega

theorem anchor_date (start : Moment) :
    toDate (start.startOfWeek.bind (fun c => c.isoWeekday .Saturday)) =
        clipInt (anchorDay start * msPerDay) ∧
      (anchorDay start + 4) % 7 = 6 := by
  have hs := start.inRange
  constructor
  · rcases clip_cases start.startOfWeek _ (toDate_timeClip _) with ⟨h1, hb⟩ | ⟨m, h1, e1, hb⟩
    · rw [h1, Option.none_bind, clipInt_of_not]
      · rfl
      · simp only [anchorDay, Moment.day, Moment.dayNumber, msPerDay, maxTime] at *
        omega
    · rw [h1, Option.some_bind]
      show toDate (timeClip _) = _
      rw [toDate_timeClip]
      congr 1
      simp only [anchorDay, Moment.day, Moment.dayNumber, parseIsoWeekday, weekdaysParse, e1,
        msPerDay] at *
      split <;> simp at * <;> omega
  · simp only [anchorDay, Moment.day, Moment.dayNumber, msPerDay]
    omega

/-- The value of `currentDate` after `n` rounds, as a date: `7 * n` days after the anchor
Saturday, invalid once the anchor or that day is outside the range of `Date`. -/
theorem roundsLoop_currentDate {α : Type} (null : α) (env : Env) (league season N m : Nat)
    (init : LoopState α) (D : Int) (h : toDate init.currentDate = clipInt (D * msPerDay))
    (hs : (D + 4) % 7 = 6) (n : Nat) :
    toDate (roundsLoop null env league season N m init n).currentDate =
      if -maxTime ≤ D * msPerDay then clipInt ((D + 7 * n) * msPerDay) else none := by
  induction n with
  | zero =>
    simp only [roundsLoop, h, Nat.cast_zero, mul_zero, add_zero]
    split
    · rfl
    · next hn => exact clipInt_of_not _ (fun hh => hn hh.1)
  | succ n ih =>
    have estep : (roundsLoop null env league season N m init (n + 1)).currentDate =
        matchDateBeforeCheck (roundsLoop null env league season N m init n).currentDate 1
          (slotDay 0) := rfl
    rw [estep]
    by_cases hlo : -maxTime ≤ D * msPerDay
    · rw [if_pos hlo] at ih ⊢
      rcases clip_cases _ _ ih with ⟨h1, hb⟩ | ⟨c, h1, e1, hb⟩
      · rw [h1, matchDateBeforeCheck_none, clipInt_of_not]
        · rfl
        · simp only [msPerDay, maxTime] at *
          push_cast
          omega
      · rw [h1, matchDateBeforeCheck_saturday c (D + 7 * n) 1 0 e1 (by omega)]
        congr 1
        push_cast
        ring
    · rw [if_neg hlo] at ih ⊢
      cases hx : (roundsLoop null env league season N m init n).currentDate with
      | none => rfl
      | some c => rw [hx] at ih; simp [toDate] at ih

theorem pairingState_currentDate {α : Type} (null : α) (env : Env) (league season : Nat)
    (shuffledTeams : List α) (startDate : Moment) (n : Nat) :
    toDate (pairingState null env league season shuffledTeams startDate n).currentDate =
      if -maxTime ≤ anchorDay startDate * msPerDay then
        clipInt ((anchorDay startDate + 7 * n) * msPerDay)
      else none :=
  roundsLoop_currentDate null env league season _ _ _ _ (anchor_date startDate).1
    (anchor_date startDate).2 n

theorem toDate_bind_addHours (x : Option Moment) :
    toDate (x.bind (fun c => c.addHours 2)) =
      (toDate x).bind (fun s => clipInt (s + 7200000)) := by
  cases x with
  | none => rfl
  | some c =>
    show toDate (timeClip _) = clipInt _
    rw [toDate_timeClip]
    rfl

theorem makeFixture_endDate {α : Type} (null : α) (env : Env) (league season N m : Nat)
    (teamss : List α) (cd : Option Moment) (r i : Nat) :
    (makeFixture null env league season N m teamss cd r i).endDate =
      (makeFixture null env league season N m teamss cd r i).startDate.bind
        (fun s => clipInt (s + 7200000)) := by
  simp only [makeFixture, generateMatchEndDate]
  split <;> exact toDate_bind_addHours _

theorem makeFixture_startDate_eq {α : Type} (null : α) (env : Env) (league season N m : Nat)
    (teamss : List α) (cd : Option Moment) (r i : Nat) :
    (makeFixture null env league season N m teamss cd r i).startDate =
      toDate (generateMatchDate (env.now (dateCall m r i)) (env.rnd (dateCall m r i)) cd r
        (slotDay i)) := by
  simp only [makeFixture, dateCall, slotDay]
  rcases Nat.mod_two_eq_zero_or_one i with h2 | h2
  · simp [h2]
  · simp [h2]

theorem makeFixture_startDate {α : Type} (null : α) (env : Env) (league season N m : Nat)
    (teamss : List α) (cd : Option Moment) (D : Int) (r i : Nat)
    (h : toDate cd =
      if -maxTime ≤ D * msPerDay then clipInt ((D + 7 * r) * msPerDay) else none)
    (hs : (D + 4) % 7 = 6) :
    (makeFixture null env league season N m teamss cd r i).startDate =
      if -maxTime ≤ D * msPerDay then clipInt (kickoff env m D r i) else none := by
  have hr := (env.rnd (dateCall m r i)).isLt
  have hi2 : i % 2 < 2 := Nat.mod_lt _ (by decide)
  rw [makeFixture_startDate_eq]
  unfold generateMatchDate
  have hnone : ∀ x : Option Int, toDate (setKickoff (env.rnd (dateCall m r i))
      (pastDateCheck (env.now (dateCall m r i)) none)) = x → x = none := by
    intro x hx; rw [← hx]; rfl
  cases hcd : cd with
  | none =>
    rw [matchDateBeforeCheck_none]
    symm
    apply hnone _
    rw [hcd] at h
    split
    · next hlo =>
      rw [if_pos hlo] at h
      have hb : ¬ (-maxTime ≤ (D + 7 * (r : Int)) * msPerDay ∧
          (D + 7 * (r : Int)) * msPerDay ≤ maxTime) := by
        intro hh; rw [clipInt_of_inRange _ hh] at h; cases h
      rw [clipInt_of_not]
      · rfl
      · simp only [kickoff, baseDay, msPerDay, msPerHour, maxTime] at *
        split <;> omega
    · rfl
  | some c =>
    rw [hcd] at h
    by_cases hlo : -maxTime ≤ D * msPerDay
    · rw [if_pos hlo] at h ⊢
      rcases clip_cases _ _ h with ⟨h1, _⟩ | ⟨c', h1, e1, hb1⟩
      · cases h1
      · rw [← Option.some.inj h1] at e1
        have hpre := matchDateBeforeCheck_saturday c (D + 7 * r) r i e1 (by omega)
        rcases clip_cases _ _ hpre with ⟨h2, hb2⟩ | ⟨p, h2, e2, hb2⟩
        · rw [h2, clipInt_of_not]
          · rfl
          · simp only [kickoff, baseDay, msPerDay, msPerHour, maxTime] at *
            split <;> omega
        · rw [h2]
          have hpd : p.dayNumber = baseDay D r i := by
            simp only [Moment.dayNumber, baseDay, e2, msPerDay]
            omega
          have h3 := pastDateCheck_some (env.now (dateCall m r i)) p
          rw [hpd] at h3
          by_cases hb : baseDay D r i < (env.now (dateCall m r i)).dayNumber
          · rw [if_pos hb] at h3
            rcases clip_cases _ _ h3 with ⟨h4, hb4⟩ | ⟨q, h4, e4, hb4⟩
            · rw [h4, setKickoff_none, clipInt_of_not]
              · rfl
              · simp only [kickoff, if_pos hb, baseDay, msPerDay, msPerHour, maxTime, e2] at *
                omega
            · rw [h4, setKickoff_some]
              unfold clipInt
              simp only [kickoff, if_pos hb, Moment.dayNumber, baseDay, msPerDay, msPerHour,
                msPerMinute, maxTime, e4, e2] at *
              split <;> split <;> first | rfl | omega | (congr 1; omega)
          · rw [if_neg hb] at h3
            cases hq : pastDateCheck (env.now (dateCall m r i)) (some p) with
            | none => rw [hq] at h3; simp [toDate] at h3
            | some q =>
              rw [hq] at h3
              have e4 : q.ts = p.ts := by simpa [toDate] using h3
              rw [setKickoff_some]
              unfold clipInt
              simp only [kickoff, if_neg hb, Moment.dayNumber, baseDay, msPerDay, msPerHour,
                msPerMinute, maxTime, e4, e2] at *
              split <;> split <;> first | rfl | omega | (congr 1; omega)
    · rw [if_neg hlo] at h
      simp [toDate] at h

theorem pairingLoop_fixtureAt {α : Type} (null : α) (env : Env) (league season : Nat)
    (shuffledTeams : List α) (startDate : Moment) (r i : Nat)
    (hr : r < (padOdd null shuffledTeams).length - 1)
    (hi : i < (padOdd null shuffledTeams).length / 2) :
    fixtureAt (pairingLoop null env league season shuffledTeams startDate) r i =
      some (makeFixture null env league season (padOdd null shuffledTeams).length
        ((padOdd null shuffledTeams).length / 2)
        (pairingState null env league season shuffledTeams startDate r).teamss
        (pairingState null env league season shuffledTeams startDate r).currentDate r i) := by
  rw [fixtureAt, pairingLoop_getElem? null env league season shuffledTeams startDate r hr]
  simp [List.getElem?_range hi]

theorem fixtureAt_startDate {α : Type} (null : α) (env : Env) (league season : Nat)
    (shuffledTeams : List α) (startDate : Moment) (r i : Nat)
    (hr : r < (padOdd null shuffledTeams).length - 1)
    (hi : i < (padOdd null shuffledTeams).length / 2) :
    ∃ f, fixtureAt (pairingLoop null env league season shuffledTeams startDate) r i = some f ∧
      f.startDate =
        (if -maxTime ≤ anchorDay startDate * msPerDay then
          clipInt (kickoff env ((padOdd null shuffledTeams).length / 2) (anchorDay startDate)
            r i)
        else none) ∧
      f.endDate = f.startDate.bind (fun s => clipInt (s + 7200000)) := by
  refine ⟨_, pairingLoop_fixtureAt null env league season shuffledTeams startDate r i hr hi,
    ?_, makeFixture_endDate _ _ _ _ _ _ _ _ _ _⟩
  exact makeFixture_startDate null env league season _ _ _ _ (anchorDay startDate) r i
    (pairingState_currentDate null env league season shuffledTeams startDate r)
    (anchor_date startDate).2

/-- Day number of a timestamp made of whole days plus a kickoff hour between 11 and 17. -/
theorem day_of_kickoff (d : Int) (h : Fin 7) :
    (d * msPerDay + ((h.val : Int) + 11) * msPerHour) / msPerDay = d := by
  have := h.isLt
  simp only [msPerDay, msPerHour]
  omega

/-- With sixteen teams and a start date within 8.6e15 ms of the epoch, every time value
the schedule computes, and the one two hours later, is inside the range of `Date`. -/
theorem kickoff_inRange (env : Env) (startDate : Moment) (r i : Nat) (hr : r < 15)
    (hrange : -8600000000000000 ≤ startDate.ts ∧ startDate.ts ≤ 8600000000000000) :
    -maxTime ≤ anchorDay startDate * msPerDay ∧
      -maxTime ≤ kickoff env 8 (anchorDay startDate) r i ∧
      kickoff env 8 (anchorDay startDate) r i + 7200000 ≤ maxTime := by
  have hq := (env.rnd (dateCall 8 r i)).isLt
  have hi2 : i % 2 < 2 := Nat.mod_lt _ (by decide)
  simp only [kickoff, baseDay, anchorDay, Moment.day, Moment.dayNumber, msPerDay, msPerHour,
    maxTime]
  refine ⟨by omega, ?_, ?_⟩ <;> split <;> omega

theorem pairingLoop_mem {α : Type} (null : α) (env : Env) (league season : Nat)
    (shuffledTeams : List α) (startDate : Moment) (round : List (Fixture α))
    (hround : round ∈ pairingLoop null env league season shuffledTeams startDate)
    (f : Fixture α) (hf : f ∈ round) :
    ∃ r i, r < (padOdd null shuffledTeams).length - 1 ∧
      i < (padOdd null shuffledTeams).length / 2 ∧
      f = makeFixture null env league season (padOdd null shuffledTeams).length
        ((padOdd null shuffledTeams).length / 2)
        (pairingState null env league season shuffledTeams startDate r).teamss
        (pairingState null env league season shuffledTeams startDate r).currentDate r i := by
  rw [pairingLoop_eq] at hround
  obtain ⟨k, hk, rfl⟩ := List.mem_map.mp hround
  obtain ⟨i, hi, rfl⟩ := List.mem_map.mp hf
  exact ⟨k, i, List.mem_range.mp hk, List.mem_range.mp hi, rfl⟩

/-- With sixteen teams and a start date within 8.6e15 ms of the epoch, the fixture of slot
`i` in round `r` has valid dates: it starts at `kickoff` and ends two hours later. -/
theorem fixtureAt_valid {α : Type} (null : α) (env : Env) (league season : Nat)
    (shuffledTeams : List α) (startDate : Moment) (h16 : shuffledTeams.length = 16)
    (hrange : -8600000000000000 ≤ startDate.ts ∧ startDate.ts ≤ 8600000000000000)
    (r i : Nat) (hr : r < 15) (hi : i < 8) :
    ∃ f, fixtureAt (pairingLoop null env league season shuffledTeams startDate) r i = some f ∧
      f.startDate = some (kickoff env 8 (anchorDay startDate) r i) ∧
      f.endDate = some (kickoff env 8 (anchorDay startDate) r i + 7200000) := by
  have hp : (padOdd null shuffledTeams).length = 16 := by
    rw [padOdd_of_even null shuffledTeams (by omega), h16]
  obtain ⟨f, h0, hs0, he0⟩ := fixtureAt_startDate null env league season shuffledTeams
    startDate r i (by omega) (by omega)
  obtain ⟨k1, k2, k3⟩ := kickoff_inRange env startDate r i hr hrange
  have e : (16 : Nat) / 2 = 8 := rfl
  rw [hp, e, if_pos k1, clipInt_of_inRange _ ⟨k2, by omega⟩] at hs0
  refine ⟨f, h0, hs0, ?_⟩
  rw [he0, hs0, Option.some_bind, clipInt_of_inRange _ ⟨by omega, k3⟩]

/-! ## The loop that builds the Round records -/

theorem getElem?_splice {β : Type} (l : List β) (f : β → β) (lo hi p : Nat) (h1 : lo ≤ hi)
    (h2 : hi ≤ l.length) :
    (l.take lo ++ (slice l lo hi).map f ++ l.drop hi)[p]? =
      if lo ≤ p ∧ p < hi then l[p]?.map f else l[p]? := by
  have e1 : (l.take lo).length = lo := by simp; omega
  have e2 : ((slice l lo hi).map f).length = hi - lo := by simp [slice]; omega
  rw [List.getElem?_append, List.length_append, e1, e2]
  by_cases hp : p < lo + (hi - lo)
  · rw [if_pos hp, List.getElem?_append, e1]
    by_cases hq : p < lo
    · rw [if_pos hq, if_neg (by omega), List.getElem?_take_of_lt hq]
    · rw [if_neg hq, if_pos ⟨by omega, by omega⟩, List.getElem?_map, slice,
        List.getElem?_drop, List.getElem?_take_of_lt (by omega)]
      congr 2
      omega
  · rw [if_neg hp, if_neg (by omega), List.getElem?_drop]
    congr 1
    omega

theorem insertMany_getElem? {α : Type} (matchId : Nat → Nat) (fl : List (Fixture α)) (p : Nat) :
    (insertMany matchId fl)[p]? =
      fl[p]?.map (fun f => { toFixture := f, _id := matchId p, roundWrites := 0 }) := by
  simp [insertMany, List.getElem?_enum, Option.map_map, Function.comp_def]

theorem insertMany_length {α : Type} (matchId : Nat → Nat) (fl : List (Fixture α)) :
    (insertMany matchId fl).length = fl.length := by
  simp [insertMany]

theorem buildRounds_inv {α : Type} (roundId matchId : Nat → Nat) (league season T h : Nat)
    (fl : List (Fixture α)) (hT : T / 2 = h) (hh : 0 < h) (n : Nat)
    (hn : n * h ≤ fl.length) :
    ∃ st, buildRounds roundId league season T fl
        { newMatches := insertMany matchId fl, rounds := [] } n = some st ∧
      st.rounds = (List.range n).map (roundRecord roundId matchId league season h fl) ∧
      st.newMatches.length = fl.length ∧
      ∀ p, st.newMatches[p]? =
        if p < n * h then
          (insertMany matchId fl)[p]?.map (assignRound (roundId (p / h)))
        else (insertMany matchId fl)[p]? := by
  induction n with
  | zero =>
    exact ⟨_, rfl, rfl, insertMany_length _ _, fun p => by simp⟩
  | succ n ih =>
    have hmul : (n + 1) * h = n * h + h := by ring
    obtain ⟨st, hst, hr, hl, hp⟩ := ih (by omega)
    have hlo : n * h < fl.length := by omega
    have hhi : (n + 1) * h - 1 < fl.length := by omega
    have hne : ¬ (n + 1) * h = 0 := by omega
    have hget : ∀ p, st.newMatches[p]? =
        if n * h ≤ p ∧ p < (n + 1) * h then st.newMatches[p]? else st.newMatches[p]? := by
      intro p; split <;> rfl
    simp only [buildRounds, hst, Option.some_bind, buildRoundBody, hT, hne, if_false,
      List.getElem?_eq_getElem hlo, List.getElem?_eq_getElem hhi]
    refine ⟨_, rfl, ?_, ?_, ?_⟩
    · simp only [hr, List.range_succ, List.map_append, List.map_cons, List.map_nil]
      congr 2
      simp only [roundRecord, List.getElem?_eq_getElem hlo, List.getElem?_eq_getElem hhi,
        Option.map_some', Option.getD_some, List.map_map]
      congr 1
      apply List.ext_getElem?
      intro j
      simp only [List.getElem?_map, slice, List.getElem?_drop, List.getElem?_take]
      by_cases hj : j < h
      · rw [if_pos (by omega), hp, if_neg (by omega), insertMany_getElem?,
          List.getElem?_eq_getElem (show n * h + j < fl.length by omega),
          List.getElem?_range hj]
        simp [assignRound]
      · rw [if_neg (by omega), List.getElem?_eq_none (by simpa using Nat.le_of_not_lt hj)]
        simp
    · simp only [List.length_append, List.length_take, List.length_map, slice,
        List.length_drop]
      omega
    · intro p
      rw [getElem?_splice _ _ _ _ _ (by omega) (by omega)]
      by_cases h1 : p < n * h
      · rw [if_neg (by omega), if_pos (by omega), hp, if_pos h1]
      · by_cases h2 : p < (n + 1) * h
        · rw [if_pos ⟨by omega, h2⟩, if_pos h2, hp, if_neg h1]
          have hdiv : p / h = n := Nat.div_eq_of_lt_le (Nat.le_of_not_lt h1) h2
          rw [hdiv]
        · rw [if_neg (by omega), if_neg h2, hp, if_neg h1]

/-! ## The whole schedule -/

theorem flatten_length_of_forall_length {β : Type} (h : Nat) :
    ∀ (L : List (List β)), (∀ l ∈ L, l.length = h) → L.flatten.length = L.length * h
  | [], _ => by simp
  | l :: rest, hl => by
    have h1 : l.length = h := hl l (by simp)
    have h2 := flatten_length_of_forall_length h rest (fun x hx => hl x (by simp [hx]))
    simp only [List.flatten_cons, List.length_append, List.length_cons, h1, h2]
    ring

theorem flatten_getElem? {β : Type} (h : Nat) :
    ∀ (L : List (List β)), (∀ l ∈ L, l.length = h) → ∀ (k j : Nat), j < h →
      L.flatten[k * h + j]? = (L[k]?).bind (fun round => round[j]?)
  | [], _, k, j, _ => by simp
  | l :: rest, hl, 0, j, hj => by
    have h1 : l.length = h := hl l (by simp)
    simp only [List.flatten_cons, Nat.zero_mul, Nat.zero_add, List.getElem?_cons_zero,
      Option.some_bind]
    exact List.getElem?_append_left (by omega)
  | l :: rest, hl, k + 1, j, hj => by
    have h1 : l.length = h := hl l (by simp)
    have e : (k + 1) * h + j = l.length + (k * h + j) := by rw [h1]; ring
    simp only [List.flatten_cons, List.getElem?_cons_succ]
    rw [e, List.getElem?_append_right (by omega), Nat.add_sub_cancel_left]
    exact flatten_getElem? h rest (fun x hx => hl x (by simp [hx])) k j hj

theorem shuffleArray_length {α : Type} (draws : (i : Nat) → Fin (i + 1)) (array : List α) :
    (shuffleArray draws array).length = array.length := by
  rw [shuffleArray_eq_shuf, shuf_length]

theorem pairingLoop_round_length {α : Type} (null : α) (env : Env) (league season : Nat)
    (shuffledTeams : List α) (startDate : Moment) :
    ∀ round ∈ pairingLoop null env league season shuffledTeams startDate,
      round.length = (padOdd null shuffledTeams).length / 2 := by
  intro round hround
  rw [pairingLoop_eq] at hround
  obtain ⟨k, _, rfl⟩ := List.mem_map.mp hround
  simp

theorem countP_eq_one_of_nodup {β : Type} [DecidableEq β] {l : List β} (hnd : l.Nodup)
    (c : β) (hc : c ∈ l) (q : β → Bool) (hq : ∀ x ∈ l, q x = true ↔ x = c) :
    l.countP q = 1 := by
  have h1 : l.countP q = l.countP (fun x => x == c) :=
    List.countP_congr (fun x hx => by simp [hq x hx])
  rw [h1]
  exact List.count_eq_one_of_mem hnd hc

/-- What lines 57-147 build, for an even number of teams, when the two bulk inserts
succeed. -/
theorem buildSchedule_spec {α : Type} (w : World α) (req : Request) (teams : List α)
    (startDate : Moment) (matchId : Nat → Nat) (heven : teams.length % 2 = 0)
    (h2 : 2 ≤ teams.length) (hm : w.matchId = some matchId) (hr : w.roundInsert = true) :
    ∃ s, buildSchedule w req teams startDate = some s ∧
      s.matchesArr = pairingLoop w.null w.env req.id req.seasonId
        (shuffleArray w.draws teams) startDate ∧
      s.flattenedMatches = s.matchesArr.flatten ∧
      s.flattenedMatches.length = (teams.length - 1) * (teams.length / 2) ∧
      s.rounds = (List.range (teams.length - 1)).map
        (roundRecord w.roundId matchId req.id req.seasonId (teams.length / 2)
          s.flattenedMatches) ∧
      s.newMatches.length = s.flattenedMatches.length ∧
      ∀ p, s.newMatches[p]? =
        if p < (teams.length - 1) * (teams.length / 2) then
          (insertMany matchId s.flattenedMatches)[p]?.map
            (assignRound (w.roundId (p / (teams.length / 2))))
        else (insertMany matchId s.flattenedMatches)[p]? := by
  have hsl := shuffleArray_length w.draws teams
  have hpad : (padOdd w.null (shuffleArray w.draws teams)).length = teams.length := by
    rw [padOdd_of_even _ _ (by omega), hsl]
  have hlen : (pairingLoop w.null w.env req.id req.seasonId (shuffleArray w.draws teams)
      startDate).length = teams.length - 1 := by
    rw [pairingLoop_length, hpad]
  have hfl : (pairingLoop w.null w.env req.id req.seasonId (shuffleArray w.draws teams)
      startDate).flatten.length = (teams.length - 1) * (teams.length / 2) := by
    rw [flatten_length_of_forall_length (teams.length / 2) _ (fun l hl => by
      rw [pairingLoop_round_length _ _ _ _ _ _ l hl, hpad]), hlen]
  obtain ⟨st, hst, hrd, hnl, hp⟩ := buildRounds_inv w.roundId matchId req.id req.seasonId
    teams.length (teams.length / 2)
    (pairingLoop w.null w.env req.id req.seasonId (shuffleArray w.draws teams) startDate).flatten
    rfl (by omega) (teams.length - 1) (by omega)
  refine ⟨{ matchesArr := _, flattenedMatches := _, newMatches := st.newMatches,
            rounds := st.rounds }, ?_, rfl, rfl, hfl, hrd, hnl, hp⟩
  simp only [buildSchedule, hm, hlen, hst, hr, if_true]
  rfl

theorem flatten_fixtureAt {α : Type} (h : Nat) (L : List (List (Fixture α)))
    (hL : ∀ l ∈ L, l.length = h) (k j : Nat) (hj : j < h) :
    L.flatten[k * h + j]? = fixtureAt L k j :=
  flatten_getElem? h L hL k j hj

/-- The Round record of pass `k` and the fixtures it takes its dates from. -/
theorem buildSchedule_round {α : Type} (w : World α) (req : Request) (teams : List α)
    (startDate : Moment) (matchId : Nat → Nat) (s : Schedule α)
    (heven : teams.length % 2 = 0) (h2 : 2 ≤ teams.length) (hm : w.matchId = some matchId)
    (hs : buildSchedule w req teams startDate = some s) (k : Nat)
    (hk : k < teams.length - 1) :
    ∃ first last rd, fixtureAt s.matchesArr k 0 = some first ∧
      fixtureAt s.matchesArr k (teams.length / 2 - 1) = some last ∧
      s.rounds[k]? = some rd ∧ rd.startDate = first.startDate ∧ rd.endDate = last.endDate ∧
      rd._id = w.roundId k ∧
      rd.matchIds = (List.range (teams.length / 2)).map
        (fun j => matchId (k * (teams.length / 2) + j)) := by
  have hr : w.roundInsert = true := by
    simp only [buildSchedule, hm] at hs
    split at hs
    · exact absurd hs (by simp)
    · split at hs
      · assumption
      · exact absurd hs (by simp)
  obtain ⟨s', hs', hma, hfl, _, hrd, _, _⟩ :=
    buildSchedule_spec w req teams startDate matchId heven h2 hm hr
  have hss : s' = s := Option.some.inj (hs'.symm.trans hs)
  subst hss
  have hsl := shuffleArray_length w.draws teams
  have hpad : (padOdd w.null (shuffleArray w.draws teams)).length = teams.length := by
    rw [padOdd_of_even _ _ (by omega), hsl]
  have hL : ∀ l ∈ s'.matchesArr, l.length = teams.length / 2 := by
    intro l hl
    rw [hma] at hl
    rw [pairingLoop_round_length _ _ _ _ _ _ l hl, hpad]
  have hf0 := pairingLoop_fixtureAt w.null w.env req.id req.seasonId
    (shuffleArray w.draws teams) startDate k 0 (by omega) (by omega)
  have hf1 := pairingLoop_fixtureAt w.null w.env req.id req.seasonId
    (shuffleArray w.draws teams) startDate k (teams.length / 2 - 1) (by omega) (by omega)
  rw [← hma] at hf0 hf1
  have e0 := flatten_fixtureAt (teams.length / 2) s'.matchesArr hL k 0 (by omega)
  have e1 := flatten_fixtureAt (teams.length / 2) s'.matchesArr hL k (teams.length / 2 - 1)
    (by omega)
  have e1' : (k + 1) * (teams.length / 2) - 1 = k * (teams.length / 2) + (teams.length / 2 - 1) := by
    have : (k + 1) * (teams.length / 2) = k * (teams.length / 2) + teams.length / 2 := by ring
    omega
  rw [Nat.add_zero, ← hfl, hf0] at e0
  rw [← hfl, hf1] at e1
  refine ⟨_, _, roundRecord w.roundId matchId req.id req.seasonId (teams.length / 2)
    s'.flattenedMatches k, hf0, hf1, ?_, ?_, ?_, rfl, rfl⟩
  · rw [hrd, List.getElem?_map, List.getElem?_range hk]
    rfl
  · simp only [roundRecord, e0, Option.some_bind]
  · simp only [roundRecord, e1', e1, Option.some_bind]

/-! ## The rotation `teamss.splice(1, 0, teamss.pop())` -/

theorem rotate_cons_concat {α : Type} (a z : α) (mid : List α) :
    rotate (a :: (mid ++ [z])) = a :: z :: mid := by
  have h1 : (a :: (mid ++ [z])).getLast? = some z := by
    rw [← List.cons_append, List.getLast?_append]; simp
  have h2 : (a :: (mid ++ [z])).dropLast = a :: mid := by
    rw [← List.cons_append, List.dropLast_concat]
  simp [rotate, h1, h2]

theorem exists_cons_concat {α : Type} (l : List α) (h : 2 ≤ l.length) :
    ∃ a mid z, l = a :: (mid ++ [z]) := by
  match l, h with
  | a :: t, h =>
    obtain ⟨mid, z, rfl, _⟩ := exists_concat_of_length t (t.length - 1)
      (by simp at h; omega)
    exact ⟨a, mid, z, rfl⟩

theorem rotate_perm {α : Type} (l : List α) : (rotate l).Perm l := by
  rcases Nat.lt_or_ge l.length 2 with h | h
  · match l, h with
    | [], _ => simp [rotate]
    | [a], _ => simp [rotate]
  · obtain ⟨a, mid, z, rfl⟩ := exists_cons_concat l h
    rw [rotate_cons_concat]
    exact (List.perm_append_singleton z mid).symm.cons a

theorem rotate_head? {α : Type} (l : List α) : (rotate l).head? = l.head? := by
  rcases Nat.lt_or_ge l.length 2 with h | h
  · match l, h with
    | [], _ => simp [rotate]
    | [a], _ => simp [rotate]
  · obtain ⟨a, mid, z, rfl⟩ := exists_cons_concat l h
    rw [rotate_cons_concat]
    rfl

theorem rotate_getD {α : Type} (null : α) (l : List α) (h : 2 ≤ l.length) (p : Nat)
    (hp : p < l.length) :
    (rotate l).getD p null =
      l.getD (if p = 0 then 0 else if p = 1 then l.length - 1 else p - 1) null := by
  obtain ⟨a, mid, z, rfl⟩ := exists_cons_concat l h
  rw [rotate_cons_concat]
  match p, hp with
  | 0, _ => simp
  | 1, _ =>
    simp only [List.length_cons, List.length_append, List.length_nil, Nat.add_sub_cancel]
    simp [List.getD_eq_getElem?_getD]
  | p + 2, hp =>
    have hp' : p < mid.length := by simp at hp; omega
    simp only [Nat.add_eq_zero, OfNat.ofNat_ne_zero, and_false, if_false,
      Nat.add_eq_right, Nat.add_sub_cancel]
    simp [List.getD_eq_getElem?_getD, List.getElem?_append_left hp']

theorem iterate_rotate_perm {α : Type} (l : List α) (n : Nat) :
    (Nat.iterate rotate n l).Perm l := by
  induction n with
  | zero => exact List.Perm.refl _
  | succ n ih =>
    rw [Function.iterate_succ_apply']
    exact (rotate_perm _).trans ih

theorem iterate_rotate_head? {α : Type} (l : List α) (n : Nat) :
    (Nat.iterate rotate n l).head? = l.head? := by
  induction n with
  | zero => rfl
  | succ n ih =>
    rw [Function.iterate_succ_apply', rotate_head?, ih]

theorem sourceIndex_zero (M r : Nat) : sourceIndex M r 0 = 0 := by simp [sourceIndex]

theorem sourceIndex_pos (M r p : Nat) (hr : r ≤ M) (hp0 : 0 < p) (hp : p ≤ M) :
    sourceIndex M r p = if r < p then p - r else p + M - r := by
  have h0 : ¬ p = 0 := by omega
  simp only [sourceIndex, h0, if_false]
  split
  · have e : p - 1 + M - r = M + (p - 1 - r) := by omega
    rw [e, Nat.add_mod_left, Nat.mod_eq_of_lt (by omega)]
    omega
  · rw [Nat.mod_eq_of_lt (by omega)]
    omega

theorem sourceIndex_le (M r p : Nat) (hr : r ≤ M) (hp : p ≤ M) : sourceIndex M r p ≤ M := by
  rcases Nat.eq_zero_or_pos p with h0 | h0
  · subst h0; simp [sourceIndex_zero]
  · rw [sourceIndex_pos M r p hr h0 hp]
    split <;> omega

theorem sourceIndex_start (M p : Nat) (hp : p ≤ M) : sourceIndex M 0 p = p := by
  rcases Nat.eq_zero_or_pos p with h0 | h0
  · subst h0; simp [sourceIndex_zero]
  · rw [sourceIndex_pos M 0 p (by omega) h0 hp]
    simp [h0]

theorem sourceIndex_step (M r p : Nat) (hr : r + 1 ≤ M) (hp : p ≤ M) :
    sourceIndex M r (if p = 0 then 0 else if p = 1 then M else p - 1) =
      sourceIndex M (r + 1) p := by
  rcases Nat.eq_zero_or_pos p with h0 | h0
  · subst h0; simp [sourceIndex_zero]
  · have hne : ¬ p = 0 := by omega
    rw [if_neg hne, sourceIndex_pos M (r + 1) p hr h0 hp]
    by_cases h1 : p = 1
    · rw [if_pos h1, sourceIndex_pos M r M (by omega) (by omega) (le_refl _)]
      split <;> split <;> omega
    · rw [if_neg h1, sourceIndex_pos M r (p - 1) (by omega) (by omega) (by omega)]
      split <;> split <;> omega

/-- Content of `teamss` after `r` rotations, position by position. -/
theorem iterate_rotate_getD {α : Type} (null : α) (l : List α) (h : 2 ≤ l.length) (r : Nat)
    (hr : r ≤ l.length - 1) (p : Nat) (hp : p < l.length) :
    (Nat.iterate rotate r l).getD p null = l.getD (sourceIndex (l.length - 1) r p) null := by
  induction r generalizing p with
  | zero => rw [sourceIndex_start _ _ (by omega)]; rfl
  | succ r ih =>
    have hlen : (Nat.iterate rotate r l).length = l.length := (iterate_rotate_perm l r).length_eq
    rw [Function.iterate_succ_apply', rotate_getD null _ (by omega) p (by omega), hlen]
    rw [ih (by omega) _ (by split <;> [omega; (split <;> omega)])]
    rw [sourceIndex_step _ r p (by omega) (by omega)]

theorem pair_index_inj (m r r' i i' : Nat) (hr : r < 2 * m - 1) (hr' : r' < 2 * m - 1)
    (hi : i < m) (hi' : i' < m)
    (h : (sourceIndex (2 * m - 1) r i = sourceIndex (2 * m - 1) r' i' ∧
          sourceIndex (2 * m - 1) r (2 * m - 1 - i) =
            sourceIndex (2 * m - 1) r' (2 * m - 1 - i')) ∨
        (sourceIndex (2 * m - 1) r i = sourceIndex (2 * m - 1) r' (2 * m - 1 - i') ∧
          sourceIndex (2 * m - 1) r (2 * m - 1 - i) = sourceIndex (2 * m - 1) r' i')) :
    r = r' ∧ i = i' := by
  have a1 := sourceIndex_pos (2 * m - 1) r (2 * m - 1 - i) (by omega) (by omega) (by omega)
  have a2 := sourceIndex_pos (2 * m - 1) r' (2 * m - 1 - i') (by omega) (by omega) (by omega)
  rcases Nat.eq_zero_or_pos i with h0 | h0 <;> rcases Nat.eq_zero_or_pos i' with h0' | h0'
  · subst h0; subst h0'
    simp only [sourceIndex_zero] at h
    split at a1 <;> split at a2 <;> omega
  · subst h0
    have b2 := sourceIndex_pos (2 * m - 1) r' i' (by omega) h0' (by omega)
    simp only [sourceIndex_zero] at h
    split at a1 <;> split at a2 <;> split at b2 <;> omega
  · subst h0'
    have b1 := sourceIndex_pos (2 * m - 1) r i (by omega) h0 (by omega)
    simp only [sourceIndex_zero] at h
    split at a1 <;> split at a2 <;> split at b1 <;> omega
  · have b1 := sourceIndex_pos (2 * m - 1) r i (by omega) h0 (by omega)
    have b2 := sourceIndex_pos (2 * m - 1) r' i' (by omega) h0' (by omega)
    split at a1 <;> split at a2 <;> split at b1 <;> split at b2 <;> omega

/-! ## One round is a perfect matching -/

theorem getD_inj {α : Type} (null : α) (l : List α) (hnd : l.Nodup) (i j : Nat)
    (hi : i < l.length) (hj : j < l.length) (h : l.getD i null = l.getD j null) : i = j := by
  rw [List.getD_eq_getElem _ _ hi, List.getD_eq_getElem _ _ hj] at h
  exact (List.Nodup.getElem_inj_iff hnd).mp h

theorem getD_mem {α : Type} (null : α) (l : List α) (i : Nat) (hi : i < l.length) :
    l.getD i null ∈ l := by
  rw [List.getD_eq_getElem _ _ hi]
  exact List.getElem_mem hi

theorem makeFixture_teams {α : Type} (null : α) (env : Env) (league season N m : Nat)
    (T : List α) (cd : Option Moment) (r i : Nat) :
    ((makeFixture null env league season N m T cd r i).homeTeam = T.getD i null ∧
      (makeFixture null env league season N m T cd r i).awayTeam = T.getD (N - 1 - i) null) ∨
    ((makeFixture null env league season N m T cd r i).homeTeam = T.getD (N - 1 - i) null ∧
      (makeFixture null env league season N m T cd r i).awayTeam = T.getD i null) := by
  simp only [makeFixture]
  split
  · exact Or.inl ⟨rfl, rfl⟩
  · exact Or.inr ⟨rfl, rfl⟩

theorem makeFixture_involves {α : Type} (null : α) (env : Env) (league season N m : Nat)
    (T : List α) (cd : Option Moment) (r i : Nat) (t : α) :
    ((makeFixture null env league season N m T cd r i).homeTeam = t ∨
      (makeFixture null env league season N m T cd r i).awayTeam = t) ↔
    (T.getD i null = t ∨ T.getD (N - 1 - i) null = t) := by
  rcases makeFixture_teams null env league season N m T cd r i with ⟨h1, h2⟩ | ⟨h1, h2⟩
  · rw [h1, h2]
  · rw [h1, h2]; exact Or.comm

theorem round_countP_team {α : Type} [DecidableEq α] (null : α) (env : Env)
    (league season : Nat) (T : List α) (cd : Option Moment) (r : Nat) (hnd : T.Nodup)
    (heven : T.length % 2 = 0) (t : α) (ht : t ∈ T) :
    ((List.range (T.length / 2)).map
      (makeFixture null env league season T.length (T.length / 2) T cd r)).countP
        (fun f => decide (f.homeTeam = t ∨ f.awayTeam = t)) = 1 := by
  obtain ⟨p, hp, hpt⟩ := List.getElem_of_mem ht
  have hpt' : T.getD p null = t := by rw [List.getD_eq_getElem _ _ hp, hpt]
  rw [List.countP_map]
  apply countP_eq_one_of_nodup (List.nodup_range _)
    (if p < T.length / 2 then p else T.length - 1 - p)
    (List.mem_range.mpr (by split <;> omega))
  intro i hi
  have hi' : i < T.length / 2 := List.mem_range.mp hi
  simp only [Function.comp, decide_eq_true_eq]
  rw [makeFixture_involves, ← hpt']
  constructor
  · rintro (h | h)
    · have := getD_inj null T hnd i p (by omega) hp h
      split <;> omega
    · have := getD_inj null T hnd (T.length - 1 - i) p (by omega) hp h
      split <;> omega
  · intro h
    split at h
    · left; rw [h]
    · right
      have : T.length - 1 - i = p := by omega
      rw [this]

theorem round_home_ne_away {α : Type} (null : α) (env : Env) (league season : Nat)
    (T : List α) (cd : Option Moment) (r i : Nat) (hnd : T.Nodup) (heven : T.length % 2 = 0)
    (hi : i < T.length / 2) :
    (makeFixture null env league season T.length (T.length / 2) T cd r i).homeTeam ≠
      (makeFixture null env league season T.length (T.length / 2) T cd r i).awayTeam := by
  intro h
  rcases makeFixture_teams null env league season T.length (T.length / 2) T cd r i with
    ⟨h1, h2⟩ | ⟨h1, h2⟩
  · rw [h1, h2] at h
    have := getD_inj null T hnd _ _ (by omega) (by omega) h
    omega
  · rw [h1, h2] at h
    have := getD_inj null T hnd _ _ (by omega) (by omega) h
    omega

theorem pairingState_teamss {α : Type} (null : α) (env : Env) (league season : Nat)
    (shuffledTeams : List α) (startDate : Moment) (n : Nat) :
    (pairingState null env league season shuffledTeams startDate n).teamss =
      Nat.iterate rotate n (padOdd null shuffledTeams) := by
  simp [pairingState, roundsLoop_teamss, pairingInit]

/-! ## All rounds together are a round robin -/

theorem shuffleArray_perm {α : Type} (draws : (i : Nat) → Fin (i + 1)) (array : List α) :
    (shuffleArray draws array).Perm array := by
  rw [shuffleArray_eq_shuf]
  rcases Nat.eq_zero_or_pos array.length with h0 | hpos
  · rw [h0]; exact List.Perm.refl _
  · exact shuf_perm draws _ array (by omega)

theorem flatten_map_product {β : Type} (F : Nat → Nat → β) (l : List Nat) :
    ∀ ks : List Nat, (ks.map (fun k => l.map (F k))).flatten =
      (ks ×ˢ l).map (fun p => F p.1 p.2)
  | [] => by simp
  | k :: ks => by
    rw [List.map_cons, List.flatten_cons, flatten_map_product F l ks, List.product_cons,
      List.map_append, List.map_map]
    rfl

/-- The pair of teams of slot `i` in round `r`, read off the array before the first
rotation. -/
theorem fixturePair_makeFixture {α : Type} (null : α) (env : Env) (league season : Nat)
    (S : List α) (cd : Option Moment) (m r i : Nat) (hS : S.length = 2 * m) (hr : r < 2 * m - 1)
    (hi : i < m) :
    fixturePair (makeFixture null env league season S.length (S.length / 2)
        (Nat.iterate rotate r S) cd r i) =
      s(S.getD (sourceIndex (2 * m - 1) r i) null,
        S.getD (sourceIndex (2 * m - 1) r (2 * m - 1 - i)) null) := by
  have e1 := iterate_rotate_getD null S (by omega) r (by omega) i (by omega)
  have e2 := iterate_rotate_getD null S (by omega) r (by omega) (S.length - 1 - i) (by omega)
  rw [hS] at e1 e2
  rcases makeFixture_teams null env league season S.length (S.length / 2)
    (Nat.iterate rotate r S) cd r i with ⟨h1, h2⟩ | ⟨h1, h2⟩
  · rw [fixturePair, h1, h2, hS, e1, e2]
  · rw [fixturePair, h1, h2, hS, e1, e2, Sym2.eq_swap]

theorem fixturePair_inj {α : Type} (null : α) (S : List α) (hnd : S.Nodup) (m : Nat)
    (hS : S.length = 2 * m) (r r' i i' : Nat) (hr : r < 2 * m - 1) (hr' : r' < 2 * m - 1)
    (hi : i < m) (hi' : i' < m)
    (h : s(S.getD (sourceIndex (2 * m - 1) r i) null,
          S.getD (sourceIndex (2 * m - 1) r (2 * m - 1 - i)) null) =
        s(S.getD (sourceIndex (2 * m - 1) r' i') null,
          S.getD (sourceIndex (2 * m - 1) r' (2 * m - 1 - i')) null)) :
    r = r' ∧ i = i' := by
  have b1 := sourceIndex_le (2 * m - 1) r i (by omega) (by omega)
  have b2 := sourceIndex_le (2 * m - 1) r (2 * m - 1 - i) (by omega) (by omega)
  have b3 := sourceIndex_le (2 * m - 1) r' i' (by omega) (by omega)
  have b4 := sourceIndex_le (2 * m - 1) r' (2 * m - 1 - i') (by omega) (by omega)
  apply pair_index_inj m r r' i i' hr hr' hi hi'
  rcases Sym2.eq_iff.mp h with ⟨h1, h2⟩ | ⟨h1, h2⟩
  · exact Or.inl ⟨getD_inj null S hnd _ _ (by omega) (by omega) h1,
      getD_inj null S hnd _ _ (by omega) (by omega) h2⟩
  · exact Or.inr ⟨getD_inj null S hnd _ _ (by omega) (by omega) h1,
      getD_inj null S hnd _ _ (by omega) (by omega) h2⟩

theorem sourceIndex_pair_ne (m r i : Nat) (hr : r < 2 * m - 1) (hi : i < m) :
    sourceIndex (2 * m - 1) r i ≠ sourceIndex (2 * m - 1) r (2 * m - 1 - i) := by
  have a1 := sourceIndex_pos (2 * m - 1) r (2 * m - 1 - i) (by omega) (by omega) (by omega)
  rcases Nat.eq_zero_or_pos i with h0 | h0
  · subst h0
    rw [sourceIndex_zero]
    split at a1 <;> omega
  · have b1 := sourceIndex_pos (2 * m - 1) r i (by omega) h0 (by omega)
    split at a1 <;> split at b1 <;> omega

/-- The pairs of teams of all fixtures, in generation order, as a list indexed by round
and slot. -/
theorem pairingLoop_pairs {α : Type} (null : α) (env : Env) (league season : Nat)
    (S : List α) (startDate : Moment) (m : Nat) (hS : S.length = 2 * m) :
    (pairingLoop null env league season S startDate).flatten.map fixturePair =
      (List.range (2 * m - 1) ×ˢ List.range m).map (fun p =>
        fixturePair (makeFixture null env league season S.length (S.length / 2)
          (Nat.iterate rotate p.1 S)
          (pairingState null env league season S startDate p.1).currentDate p.1 p.2)) := by
  have hpad : padOdd null S = S := padOdd_of_even null S (by omega)
  have hm : S.length / 2 = m := by omega
  rw [pairingLoop_eq, hpad]
  simp only [pairingState_teamss, hpad]
  rw [flatten_map_product, List.map_map, hS, show 2 * m / 2 = m by omega]
  rfl

theorem pairingLoop_pairs_nodup {α : Type} (null : α) (env : Env) (league season : Nat)
    (S : List α) (startDate : Moment) (m : Nat) (hS : S.length = 2 * m) (hnd : S.Nodup) :
    ((pairingLoop null env league season S startDate).flatten.map fixturePair).Nodup := by
  rw [pairingLoop_pairs null env league season S startDate m hS]
  apply List.Nodup.map_on _ ((List.nodup_range _).product (List.nodup_range _))
  rintro ⟨r, i⟩ hx ⟨r', i'⟩ hy h
  rw [List.mem_product, List.mem_range, List.mem_range] at hx hy
  simp only at h
  rw [fixturePair_makeFixture null env league season S _ m r i hS hx.1 hx.2,
    fixturePair_makeFixture null env league season S _ m r' i' hS hy.1 hy.2] at h
  obtain ⟨h1, h2⟩ := fixturePair_inj null S hnd m hS r r' i i' hx.1 hy.1 hx.2 hy.2 h
  rw [h1, h2]

theorem pairingLoop_pairs_mem {α : Type} [DecidableEq α] (null : α) (env : Env)
    (league season : Nat) (S : List α) (startDate : Moment) (m : Nat) (hS : S.length = 2 * m)
    (hnd : S.Nodup) :
    ∀ x ∈ (pairingLoop null env league season S startDate).flatten.map fixturePair,
      x ∈ S.toFinset.offDiag.image Sym2.mk := by
  rw [pairingLoop_pairs null env league season S startDate m hS]
  intro x hx
  obtain ⟨⟨r, i⟩, hp, rfl⟩ := List.mem_map.mp hx
  rw [List.mem_product, List.mem_range, List.mem_range] at hp
  simp only
  rw [fixturePair_makeFixture null env league season S _ m r i hS hp.1 hp.2]
  have b1 := sourceIndex_le (2 * m - 1) r i (by omega) (by omega)
  have b2 := sourceIndex_le (2 * m - 1) r (2 * m - 1 - i) (by omega) (by omega)
  refine Finset.mem_image.mpr ⟨(_, _), Finset.mem_offDiag.mpr ⟨?_, ?_, ?_⟩, rfl⟩
  · exact List.mem_toFinset.mpr (getD_mem null S _ (by omega))
  · exact List.mem_toFinset.mpr (getD_mem null S _ (by omega))
  · intro h
    exact sourceIndex_pair_ne m r i hp.1 hp.2 (getD_inj null S hnd _ _ (by omega) (by omega) h)

theorem pairingLoop_pairs_length {α : Type} (null : α) (env : Env) (league season : Nat)
    (S : List α) (startDate : Moment) (m : Nat) (hS : S.length = 2 * m) :
    ((pairingLoop null env league season S startDate).flatten.map fixturePair).length =
      (2 * m - 1) * m := by
  rw [pairingLoop_pairs null env league season S startDate m hS]
  simp [List.length_product]

/-- Every pair of distinct teams is the pair of exactly one fixture. -/
theorem pairingLoop_count_pair {α : Type} [DecidableEq α] (null : α) (env : Env)
    (league season : Nat) (S : List α) (startDate : Moment) (m : Nat) (hS : S.length = 2 * m)
    (hnd : S.Nodup) (a b : α) (ha : a ∈ S) (hb : b ∈ S) (hab : a ≠ b) :
    ((pairingLoop null env league season S startDate).flatten.map fixturePair).count s(a, b)
      = 1 := by
  have hN := pairingLoop_pairs_nodup null env league season S startDate m hS hnd
  have hsub : ((pairingLoop null env league season S startDate).flatten.map
      fixturePair).toFinset ⊆ S.toFinset.offDiag.image Sym2.mk := by
    intro x hx
    exact pairingLoop_pairs_mem null env league season S startDate m hS hnd x
      (List.mem_toFinset.mp hx)
  have hcard : (S.toFinset.offDiag.image Sym2.mk).card ≤
      ((pairingLoop null env league season S startDate).flatten.map fixturePair).toFinset.card := by
    rw [Sym2.card_image_offDiag, List.toFinset_card_of_nodup hnd, List.toFinset_card_of_nodup hN,
      pairingLoop_pairs_length null env league season S startDate m hS, hS,
      Nat.choose_two_right]
    apply le_of_eq
    rw [Nat.mul_assoc, Nat.mul_div_cancel_left _ (by decide : 0 < 2), Nat.mul_comm]
  have heq := Finset.eq_of_subset_of_card_le hsub hcard
  have hmem : s(a, b) ∈ (pairingLoop null env league season S startDate).flatten.map
      fixturePair := by
    rw [← List.mem_toFinset, heq]
    exact Finset.mem_image.mpr ⟨(a, b), Finset.mem_offDiag.mpr
      ⟨List.mem_toFinset.mpr ha, List.mem_toFinset.mpr hb, hab⟩, rfl⟩
  exact List.count_eq_one_of_mem hN hmem

/-! ## Claims about dates -/

/-- C9, counterexample: sixteen teams and the valid start date 8639999395200000, a
Saturday one week before the last day a `Date` can hold. The first fixture of round 1 is
placed on that last day at 11:00, outside the range of `Date`: its `startDate` and its
`endDate` are `Invalid Date`, and their difference is not two hours. -/
theorem fixture_invalid_date_counterexample :
    ∃ f, fixtureAt (pairingLoop 0 earlyEnv 1 1 sixteen farSaturday) 1 0 = some f ∧
      f.startDate = none ∧ f.endDate = none := by
  obtain ⟨f, h0, hs0, he0⟩ := fixtureAt_startDate 0 earlyEnv 1 1 sixteen farSaturday 1 0
    (by decide) (by decide)
  have hs : f.startDate = none := by rw [hs0]; decide
  exact ⟨f, h0, hs, by rw [he0, hs]; rfl⟩

/-- C9, amended: the pairing loop of `generateMatchSchedule` builds `numTeams - 1` rounds
of `numTeams / 2` fixtures; for every start date, clock, slot parity and kickoff-hour draw
the `endDate` of a fixture is its `startDate` plus two hours (7,200,000 ms), clipped to the
range of `Date`, so whenever both are valid dates their difference is exactly two hours;
and with sixteen teams and a start date within 8.6e15 ms of the epoch both dates of every
fixture are valid. -/
theorem valid_fixture_duration_two_hours {α : Type} (null : α) (env : Env)
    (league season : Nat) (shuffledTeams : List α) (startDate : Moment) :
    ((pairingLoop null env league season shuffledTeams startDate).length =
        (padOdd null shuffledTeams).length - 1 ∧
      ∀ round ∈ pairingLoop null env league season shuffledTeams startDate,
        round.length = (padOdd null shuffledTeams).length / 2 ∧
          ∀ f ∈ round, f.endDate = f.startDate.bind (fun s => clipInt (s + 7200000)) ∧
            ∀ s e, f.startDate = some s → f.endDate = some e → e - s = 7200000) ∧
    (shuffledTeams.length = 16 →
      (-8600000000000000 ≤ startDate.ts ∧ startDate.ts ≤ 8600000000000000) →
      ∀ round ∈ pairingLoop null env league season shuffledTeams startDate,
        ∀ f ∈ round, ∃ s, f.startDate = some s ∧ f.endDate = some (s + 7200000)) := by
  refine ⟨⟨pairingLoop_length _ _ _ _ _ _, ?_⟩, ?_⟩
  · intro round hround
    refine ⟨pairingLoop_round_length _ _ _ _ _ _ round hround, ?_⟩
    intro f hf
    obtain ⟨r, i, _, _, rfl⟩ := pairingLoop_mem null env league season shuffledTeams startDate
      round hround f hf
    have he := makeFixture_endDate null env league season (padOdd null shuffledTeams).length
      ((padOdd null shuffledTeams).length / 2)
      (pairingState null env league season shuffledTeams startDate r).teamss
      (pairingState null env league season shuffledTeams startDate r).currentDate r i
    refine ⟨he, ?_⟩
    intro s e hs hend
    rw [he, hs, Option.some_bind] at hend
    unfold clipInt at hend
    split at hend
    · have := Option.some.inj hend
      omega
    · cases hend
  · intro h16 hrange round hround f hf
    have hp : (padOdd null shuffledTeams).length = 16 := by
      rw [padOdd_of_even null shuffledTeams (by omega), h16]
    obtain ⟨r, i, hr, hi, rfl⟩ := pairingLoop_mem null env league season shuffledTeams
      startDate round hround f hf
    obtain ⟨f', h0, hs0, he0⟩ := fixtureAt_valid null env league season shuffledTeams
      startDate h16 hrange r i (by omega) (by omega)
    rw [pairingLoop_fixtureAt null env league season shuffledTeams startDate r i hr hi] at h0
    rw [Option.some.inj h0]
    exact ⟨_, hs0, he0⟩

/-- Witness of `valid_fixture_duration_two_hours`: sixteen teams, start on Monday
2024-01-01. -/
theorem valid_fixture_duration_two_hours_witness :
    sixteen.length = 16 ∧
    (-8600000000000000 ≤ monday.ts ∧ monday.ts ≤ 8600000000000000) ∧
    ∀ round ∈ pairingLoop 0 earlyEnv 1 1 sixteen monday,
      ∀ f ∈ round, ∃ s, f.startDate = some s ∧ f.endDate = some (s + 7200000) :=
  ⟨rfl, by decide,
    (valid_fixture_duration_two_hours 0 earlyEnv 1 1 sixteen monday).2 rfl (by decide)⟩

/-- C4, as the code behaves: with sixteen teams, a start date within 8.6e15 ms of the
epoch and a clock that never passes the anchor Saturday (no past-date correction fires),
the fixture of slot `i` in round `r` is dated `14 * r` days after the fixture of slot `i`
in round `0`: consecutive rounds are two weeks apart, not one. -/
theorem rounds_two_weeks_apart {α : Type} (null : α) (env : Env) (league season : Nat)
    (shuffledTeams : List α) (startDate : Moment) (h16 : shuffledTeams.length = 16)
    (hrange : -8600000000000000 ≤ startDate.ts ∧ startDate.ts ≤ 8600000000000000)
    (hclock : ∀ k, (env.now k).dayNumber ≤ anchorDay startDate) (r i : Nat) (hr : r < 15)
    (hi : i < 8) :
    ∃ f0 fr s0 sr,
      fixtureAt (pairingLoop null env league season shuffledTeams startDate) 0 i = some f0 ∧
      fixtureAt (pairingLoop null env league season shuffledTeams startDate) r i = some fr ∧
      f0.startDate = some s0 ∧ fr.startDate = some sr ∧
      sr / msPerDay = s0 / msPerDay + 14 * r := by
  obtain ⟨f0, h0, hs0, _⟩ := fixtureAt_valid null env league season shuffledTeams startDate
    h16 hrange 0 i (by omega) hi
  obtain ⟨fr, h1, hs1, _⟩ := fixtureAt_valid null env league season shuffledTeams startDate
    h16 hrange r i hr hi
  refine ⟨f0, fr, _, _, h0, h1, hs0, hs1, ?_⟩
  have c0 := hclock (dateCall 8 0 i)
  have c1 := hclock (dateCall 8 r i)
  have b0 : ¬ baseDay (anchorDay startDate) 0 i < (env.now (dateCall 8 0 i)).dayNumber := by
    simp only [baseDay]; omega
  have b1 : ¬ baseDay (anchorDay startDate) r i < (env.now (dateCall 8 r i)).dayNumber := by
    simp only [baseDay]; omega
  simp only [kickoff]
  rw [if_neg b0, if_neg b1, add_zero, add_zero, day_of_kickoff, day_of_kickoff]
  simp only [baseDay]
  push_cast
  ring

/-- Witness of `rounds_two_weeks_apart`: sixteen teams, start on Monday 2024-01-01, clock a
week earlier, round 1 against round 0. -/
theorem rounds_two_weeks_apart_witness :
    sixteen.length = 16 ∧
    (-8600000000000000 ≤ monday.ts ∧ monday.ts ≤ 8600000000000000) ∧
    (∀ k, (earlyEnv.now k).dayNumber ≤ anchorDay monday) ∧
    ∃ f0 fr s0 sr, fixtureAt (pairingLoop 0 earlyEnv 1 1 sixteen monday) 0 0 = some f0 ∧
      fixtureAt (pairingLoop 0 earlyEnv 1 1 sixteen monday) 1 0 = some fr ∧
      f0.startDate = some s0 ∧ fr.startDate = some sr ∧
      sr / msPerDay = s0 / msPerDay + 14 * (1 : Nat) :=
  ⟨by decide, by decide,
    fun _ => (by decide : (earlyEnv.now 0).dayNumber ≤ anchorDay monday),
    rounds_two_weeks_apart 0 earlyEnv 1 1 sixteen monday (by decide) (by decide)
      (fun _ => (by decide : (earlyEnv.now 0).dayNumber ≤ anchorDay monday)) 1 0
      (by decide) (by decide)⟩

/-- C7, as the code behaves: with sixteen teams, a start date that is a Monday, not
earlier than -8.6e15 ms, and a clock that is at least two days behind it (no past-date
correction fires), the first round's even-slot fixtures are dated two days BEFORE the start
date (the Saturday that precedes it), the odd-slot fixtures one day before it, and every
fixture of the first round starts before the start date. -/
theorem monday_first_round_before_start {α : Type} (null : α) (env : Env)
    (league season : Nat) (shuffledTeams : List α) (startDate : Moment)
    (h16 : shuffledTeams.length = 16) (hmon : startDate.day = 1)
    (hlow : -8600000000000000 ≤ startDate.ts)
    (hclock : ∀ k, (env.now k).dayNumber ≤ startDate.dayNumber - 2) (i : Nat) (hi : i < 8) :
    ∃ f s, fixtureAt (pairingLoop null env league season shuffledTeams startDate) 0 i = some f ∧
      f.startDate = some s ∧
      s / msPerDay = startDate.dayNumber - 2 + (i % 2 : Nat) ∧
      s < startDate.ts := by
  have hp : (padOdd null shuffledTeams).length = 16 := by
    rw [padOdd_of_even null shuffledTeams (by omega), h16]
  obtain ⟨f, h0, hs0, _⟩ := fixtureAt_startDate null env league season shuffledTeams startDate
    0 i (by omega) (by omega)
  have e : (16 : Nat) / 2 = 8 := rfl
  rw [hp, e] at hs0
  have c0 := hclock (dateCall 8 0 i)
  have hb : baseDay (anchorDay startDate) 0 i = startDate.dayNumber - 2 + (i % 2 : Nat) := by
    simp only [baseDay, anchorDay, hmon]; push_cast; ring
  have b0 : ¬ baseDay (anchorDay startDate) 0 i < (env.now (dateCall 8 0 i)).dayNumber := by
    rw [hb]; omega
  have hk : kickoff env 8 (anchorDay startDate) 0 i =
      (startDate.dayNumber - 2 + (i % 2 : Nat)) * msPerDay +
        (((env.rnd (dateCall 8 0 i)).val : Int) + 11) * msPerHour := by
    simp only [kickoff]
    rw [if_neg b0, add_zero, hb]
  have hr := (env.rnd (dateCall 8 0 i)).isLt
  have hi2 : i % 2 < 2 := Nat.mod_lt _ (by decide)
  have hin := startDate.inRange
  have hlt : kickoff env 8 (anchorDay startDate) 0 i < startDate.ts := by
    rw [hk]
    simp only [Moment.dayNumber, msPerDay, msPerHour]
    omega
  have hlo : -maxTime ≤ anchorDay startDate * msPerDay := by
    simp only [anchorDay, hmon, Moment.dayNumber, msPerDay, maxTime]
    omega
  have hge : -maxTime ≤ kickoff env 8 (anchorDay startDate) 0 i := by
    rw [hk]
    simp only [anchorDay, hmon, Moment.dayNumber, msPerDay, msPerHour, maxTime] at *
    omega
  rw [if_pos hlo, clipInt_of_inRange _ ⟨hge, by omega⟩] at hs0
  refine ⟨f, _, h0, hs0, ?_, hlt⟩
  rw [hk, day_of_kickoff]

/-- Witness of `monday_first_round_before_start`: sixteen teams, start on Monday
2024-01-01, clock a week earlier, slot 0. -/
theorem monday_first_round_before_start_witness :
    sixteen.length = 16 ∧ monday.day = 1 ∧ -8600000000000000 ≤ monday.ts ∧
    (∀ k, (earlyEnv.now k).dayNumber ≤ monday.dayNumber - 2) ∧
    ∃ f s, fixtureAt (pairingLoop 0 earlyEnv 1 1 sixteen monday) 0 0 = some f ∧
      f.startDate = some s ∧
      s / msPerDay = monday.dayNumber - 2 + (0 % 2 : Nat) ∧
      s < monday.ts :=
  ⟨by decide, by decide, by decide,
    fun _ => (by decide : (earlyEnv.now 0).dayNumber ≤ monday.dayNumber - 2),
    monday_first_round_before_start 0 earlyEnv 1 1 sixteen monday (by decide) (by decide)
      (by decide)
      (fun _ => (by decide : (earlyEnv.now 0).dayNumber ≤ monday.dayNumber - 2))
      0 (by decide)⟩

/-- C5, counterexample: sixteen teams, start date Monday 2024-01-01, clock thirty days
later. The first fixture is moved one week only and starts before the current moment. -/
theorem past_start_counterexample :
    monday.ts < (lateEnv.now (dateCall 8 0 0)).ts ∧
    ∃ f s, fixtureAt (pairingLoop 0 lateEnv 1 1 sixteen monday) 0 0 = some f ∧
      f.startDate = some s ∧ s < (lateEnv.now (dateCall 8 0 0)).ts := by
  refine ⟨by decide, ?_⟩
  obtain ⟨f, h0, hs0, _⟩ := fixtureAt_valid 0 lateEnv 1 1 sixteen monday rfl (by decide) 0 0
    (by decide) (by decide)
  exact ⟨f, _, h0, hs0, by decide⟩

/-- C5, amended: with sixteen teams, when the date that line 162 computes for the fixture
of slot `i` in round `r` (the value of `matchDate` before the past-date check) is valid
and the fixture has a valid start date, the day of the fixture is the day of that date,
moved forward by exactly one week when it is before the day of the clock and left in place
otherwise. So a fixture whose line-162 date is at most seven days behind the current day
is dated on or after the current day. -/
theorem past_dates_pushed_one_week {α : Type} (null : α) (env : Env) (league season : Nat)
    (shuffledTeams : List α) (startDate : Moment) (h16 : shuffledTeams.length = 16)
    (r i : Nat) (hr : r < 15) (hi : i < 8) (pre : Moment) (s : Int)
    (hpre : matchDateBeforeCheck
      (pairingState null env league season shuffledTeams startDate r).currentDate r
      (slotDay i) = some pre)
    (hs : (fixtureAt (pairingLoop null env league season shuffledTeams startDate) r i).bind
      (fun f => f.startDate) = some s) :
    s / msPerDay = pre.dayNumber +
        (if pre.dayNumber < (env.now (dateCall 8 r i)).dayNumber then 7 else 0) ∧
      ((env.now (dateCall 8 r i)).dayNumber ≤ pre.dayNumber + 7 →
        (env.now (dateCall 8 r i)).dayNumber ≤ s / msPerDay) := by
  have hp : (padOdd null shuffledTeams).length = 16 := by
    rw [padOdd_of_even null shuffledTeams (by omega), h16]
  rw [pairingLoop_fixtureAt null env league season shuffledTeams startDate r i (by omega)
    (by omega), Option.some_bind, makeFixture_startDate_eq, hp] at hs
  have e : (16 : Nat) / 2 = 8 := rfl
  rw [e] at hs
  have hd := generateMatchDate_day _ _ _ r (slotDay i) pre s hpre hs
  refine ⟨hd, ?_⟩
  rw [hd]
  split <;> omega

/-- Witness of `past_dates_pushed_one_week`: sixteen teams, start on Monday 2024-01-01,
clock on the same day, round 0, slot 0: line 162 gives Saturday 2023-12-30, two days
behind the clock, and the fixture starts on Saturday 2024-01-06 at 11:00. -/
theorem past_dates_pushed_one_week_witness :
    sixteen.length = 16 ∧ 0 < 15 ∧ 0 < 8 ∧
    matchDateBeforeCheck (pairingState 0 startDayEnv 1 1 sixteen monday 0).currentDate 0
      (slotDay 0) = some ⟨19721 * 86400000, by decide⟩ ∧
    (fixtureAt (pairingLoop 0 startDayEnv 1 1 sixteen monday) 0 0).bind
      (fun f => f.startDate) = some (19728 * 86400000 + 11 * 3600000) ∧
    ((19728 * 86400000 + 11 * 3600000 : Int) / msPerDay =
        (⟨19721 * 86400000, by decide⟩ : Moment).dayNumber +
          (if (⟨19721 * 86400000, by decide⟩ : Moment).dayNumber <
              (startDayEnv.now (dateCall 8 0 0)).dayNumber then 7 else 0) ∧
      ((startDayEnv.now (dateCall 8 0 0)).dayNumber ≤
          (⟨19721 * 86400000, by decide⟩ : Moment).dayNumber + 7 →
        (startDayEnv.now (dateCall 8 0 0)).dayNumber ≤
          (19728 * 86400000 + 11 * 3600000 : Int) / msPerDay)) := by
  have hpre : matchDateBeforeCheck
      (pairingState 0 startDayEnv 1 1 sixteen monday 0).currentDate 0 (slotDay 0) =
      some ⟨19721 * 86400000, by decide⟩ := by decide
  have hs : (fixtureAt (pairingLoop 0 startDayEnv 1 1 sixteen monday) 0 0).bind
      (fun f => f.startDate) = some (19728 * 86400000 + 11 * 3600000) := by
    obtain ⟨f, h0, hs0, _⟩ := fixtureAt_valid 0 startDayEnv 1 1 sixteen monday rfl
      (by decide) 0 0 (by decide) (by decide)
    rw [h0, Option.some_bind, hs0]
    decide
  exact ⟨by decide, by decide, by decide, hpre, hs,
    past_dates_pushed_one_week 0 startDayEnv 1 1 sixteen monday (by decide) 0 0 (by decide)
      (by decide) _ _ hpre hs⟩

/-! ## Claim about `shuffleArray` -/

/-- C10: `shuffleArray` is an exact Fisher-Yates shuffle. For a list of distinct elements
and draws `j_i` with `0 ≤ j_i ≤ i`: every result is a permutation of the input, of the same
length, and the input array is left as it was; every permutation of the input is the result
of some draw sequence; and two draw sequences with the same result agree at every index
`i` with `1 ≤ i < n` that the loop reads. The map from draw sequences to results is thus a
bijection onto the permutations of the input. -/
theorem shuffleArray_fisher_yates {α : Type} (array : List α) (hd : array.Nodup) :
    (∀ draws : (i : Nat) → Fin (i + 1),
      (shuffleArray draws array).Perm array ∧
        (shuffleArray draws array).length = array.length ∧
        (shuffleRun draws array).array = array) ∧
    (∀ p : List α, p.Perm array → ∃ draws : (i : Nat) → Fin (i + 1),
      shuffleArray draws array = p) ∧
    (∀ d1 d2 : (i : Nat) → Fin (i + 1), shuffleArray d1 array = shuffleArray d2 array →
      ∀ i, 1 ≤ i → i < array.length → d1 i = d2 i) := by
  rcases Nat.eq_zero_or_pos array.length with h0 | hpos
  · have hnil : array = [] := List.length_eq_zero.mp h0
    subst hnil
    refine ⟨fun draws => ⟨?_, ?_, ?_⟩, fun p hp => ⟨fun _ => 0, ?_⟩, ?_⟩
    · simp [shuffleArray_eq_shuf, shuf]
    · simp [shuffleArray_eq_shuf, shuf]
    · simp [shuffleRun, shuffleLoop_array]
    · simp [shuffleArray_eq_shuf, shuf, List.perm_nil.mp hp]
    · intro d1 d2 _ i _ hi
      simp at hi
  · have hlen : array.length = (array.length - 1) + 1 := by omega
    refine ⟨fun draws => ⟨?_, ?_, ?_⟩, fun p hp => ?_, ?_⟩
    · rw [shuffleArray_eq_shuf]
      exact shuf_perm draws _ array hlen
    · rw [shuffleArray_eq_shuf, shuf_length]
    · simp [shuffleRun, shuffleLoop_array]
    · obtain ⟨d, hd2⟩ := shuf_surjective (array.length - 1) array p hlen hp
      exact ⟨d, by rw [shuffleArray_eq_shuf, hd2]⟩
    · intro d1 d2 heq i h1 hi
      rw [shuffleArray_eq_shuf, shuffleArray_eq_shuf] at heq
      exact shuf_injective d1 d2 (array.length - 1) array hlen hd heq i h1 (by omega)

/-- Witness of `shuffleArray_fisher_yates`: the three-element array `[1, 2, 3]`. -/
theorem shuffleArray_fisher_yates_witness :
    ([1, 2, 3] : List Nat).Nodup ∧
    ((∀ draws : (i : Nat) → Fin (i + 1),
      (shuffleArray draws [1, 2, 3]).Perm [1, 2, 3] ∧
        (shuffleArray draws [1, 2, 3]).length = [1, 2, 3].length ∧
        (shuffleRun draws [1, 2, 3]).array = [1, 2, 3]) ∧
    (∀ p : List Nat, p.Perm [1, 2, 3] → ∃ draws : (i : Nat) → Fin (i + 1),
      shuffleArray draws [1, 2, 3] = p) ∧
    (∀ d1 d2 : (i : Nat) → Fin (i + 1),
      shuffleArray d1 [1, 2, 3] = shuffleArray d2 [1, 2, 3] →
      ∀ i, 1 ≤ i → i < [1, 2, 3].length → d1 i = d2 i)) :=
  ⟨by decide, shuffleArray_fisher_yates [1, 2, 3] (by decide)⟩

/-! ## Claims about the response and the Round records -/

/-- C6, counterexample: the league exists, has a single team and the start date is valid;
the handler answers 404, not 400. -/
theorem too_few_teams_counterexample :
    oneTeamWorld.league = some true ∧ oneTeamWorld.teams = some [0] ∧
      sampleRequest.startDate = some monday ∧
      (generateMatchSchedule oneTeamWorld sampleRequest).status? = some 404 := by
  refine ⟨rfl, rfl, rfl, ?_⟩
  simp [generateMatchSchedule, oneTeamWorld, sampleWorld, Response.status?]

/-- C6, amended: the handler answers 404 when the league does not exist and also when it
exists with fewer than 2 teams; 400 when the league has at least 2 teams and the start
date is invalid or the team count is not 16; 201 when the league exists, has exactly 16
teams, the start date is valid and the two bulk inserts and the populate call succeed. -/
theorem response_status {α : Type} (w : World α) (req : Request) :
    (w.league = some false → (generateMatchSchedule w req).status? = some 404) ∧
    (∀ teams, w.league = some true → w.teams = some teams →
      (teams.length < 2 → (generateMatchSchedule w req).status? = some 404) ∧
      (2 ≤ teams.length → (req.startDate = none ∨ teams.length ≠ 16) →
        (generateMatchSchedule w req).status? = some 400) ∧
      (teams.length = 16 → req.startDate.isSome = true → w.matchId.isSome = true →
        w.roundInsert = true → w.populate = true →
        (generateMatchSchedule w req).status? = some 201)) := by
  refine ⟨fun hl => by simp [generateMatchSchedule, hl, Response.status?], ?_⟩
  intro teams hl ht
  refine ⟨fun h => ?_, fun h2 h => ?_, fun h16 hsd hm hr hpop => ?_⟩
  · simp [generateMatchSchedule, hl, ht, h, Response.status?]
  · have h2' : ¬ teams.length < 2 := by omega
    rcases h with h | h
    · simp [generateMatchSchedule, hl, ht, h2', h, Response.status?]
    · cases hsd : req.startDate with
      | none => simp [generateMatchSchedule, hl, ht, h2', hsd, Response.status?]
      | some d => simp [generateMatchSchedule, hl, ht, h2', hsd, h, Response.status?]
  · obtain ⟨d, hd⟩ := Option.isSome_iff_exists.mp hsd
    obtain ⟨matchId, hmid⟩ := Option.isSome_iff_exists.mp hm
    obtain ⟨s, hs, _⟩ := buildSchedule_spec w req teams d matchId (by omega) (by omega) hmid hr
    simp [generateMatchSchedule, hl, ht, h16, hd, hs, hpop, Response.status?]

/-- Witness of `response_status`: the world `sampleWorld`, where the league exists and has
sixteen teams. -/
theorem response_status_witness :
    sampleWorld.league = some true ∧ sampleWorld.teams = some sixteen ∧
      sixteen.length = 16 ∧ sampleRequest.startDate.isSome = true ∧
      sampleWorld.matchId.isSome = true ∧ sampleWorld.roundInsert = true ∧
      sampleWorld.populate = true ∧
      (generateMatchSchedule sampleWorld sampleRequest).status? = some 201 :=
  ⟨rfl, rfl, rfl, rfl, rfl, rfl, rfl,
    ((response_status sampleWorld sampleRequest).2 sixteen rfl rfl).2.2 rfl rfl rfl rfl rfl⟩

/-- C8: with sixteen teams and both bulk inserts succeeding (documents returned in input
order, with distinct ids), lines 57-147 build 15 rounds of 8 fixtures, 120 documents and
exactly 15 Round records; the record of round `k` has the id of the `k`-th `new Round` and
lists exactly the ids of the documents at the flattened positions `8k .. 8k+7`, in order,
which are the fixtures of pairing round `k`; every document has its `round` field assigned
exactly once, to the id of round `p / 8`, is listed by exactly one Round record, and its
`round` field equals the id of any Round record that lists it. -/
theorem rounds_partition_fixtures {α : Type} (w : World α) (req : Request) (teams : List α)
    (startDate : Moment) (matchId : Nat → Nat) (h16 : teams.length = 16)
    (hm : w.matchId = some matchId) (hr : w.roundInsert = true)
    (hinj : ∀ p q, p < 120 → q < 120 → matchId p = matchId q → p = q) :
    ∃ s, buildSchedule w req teams startDate = some s ∧
      s.matchesArr.length = 15 ∧ (∀ round ∈ s.matchesArr, round.length = 8) ∧
      s.flattenedMatches.length = 120 ∧ s.newMatches.length = 120 ∧ s.rounds.length = 15 ∧
      (∀ k, k < 15 → ∃ rd, s.rounds[k]? = some rd ∧ rd._id = w.roundId k ∧
        rd.matchIds = (List.range 8).map (fun j => matchId (k * 8 + j)) ∧
        ∀ j, j < 8 → s.flattenedMatches[k * 8 + j]? = fixtureAt s.matchesArr k j ∧
          (s.newMatches[k * 8 + j]?).map (fun m => m._id) = some (matchId (k * 8 + j))) ∧
      (∀ p, p < 120 → ∃ f m, s.flattenedMatches[p]? = some f ∧ s.newMatches[p]? = some m ∧
        m._id = matchId p ∧ m.toFixture = { f with round := some (w.roundId (p / 8)) } ∧
        m.roundWrites = 1 ∧
        s.rounds.countP (fun rd => decide (m._id ∈ rd.matchIds)) = 1 ∧
        ∀ rd ∈ s.rounds, m._id ∈ rd.matchIds → m.round = some rd._id) := by
  obtain ⟨s, hs, hma, hfl, hfll, hrd, hnl, hp⟩ :=
    buildSchedule_spec w req teams startDate matchId (by omega) (by omega) hm hr
  have e15 : teams.length - 1 = 15 := by omega
  have e8 : teams.length / 2 = 8 := by omega
  rw [e15, e8] at hfll hrd hp
  have hsl := shuffleArray_length w.draws teams
  have hpad : (padOdd w.null (shuffleArray w.draws teams)).length = teams.length := by
    rw [padOdd_of_even _ _ (by omega), hsl]
  have hL : ∀ l ∈ s.matchesArr, l.length = 8 := by
    intro l hl
    rw [hma] at hl
    rw [pairingLoop_round_length _ _ _ _ _ _ l hl, hpad, e8]
  have hdoc : ∀ p, p < 120 → ∃ f, s.flattenedMatches[p]? = some f ∧
      s.newMatches[p]? = some (assignRound (w.roundId (p / 8))
        { toFixture := f, _id := matchId p, roundWrites := 0 }) := by
    intro p hp120
    have hlt : p < s.flattenedMatches.length := by omega
    refine ⟨s.flattenedMatches[p], List.getElem?_eq_getElem hlt, ?_⟩
    rw [hp p, if_pos (by omega), insertMany_getElem?, List.getElem?_eq_getElem hlt]
    rfl
  have hmem : ∀ p k, p < 120 → k < 15 →
      (matchId p ∈ (roundRecord w.roundId matchId req.id req.seasonId 8
        s.flattenedMatches k).matchIds ↔ k = p / 8) := by
    intro p k hp120 hk
    simp only [roundRecord, List.mem_map, List.mem_range]
    constructor
    · rintro ⟨j, hj, hjp⟩
      have := hinj _ _ (by omega) hp120 hjp
      omega
    · intro hkp
      exact ⟨p % 8, Nat.mod_lt _ (by decide), by congr 1; omega⟩
  refine ⟨s, hs, ?_, hL, by omega, by omega, ?_, ?_, ?_⟩
  · rw [hma, pairingLoop_length, hpad, e15]
  · rw [hrd]; simp
  · intro k hk
    refine ⟨roundRecord w.roundId matchId req.id req.seasonId 8 s.flattenedMatches k,
      ?_, rfl, rfl, ?_⟩
    · rw [hrd, List.getElem?_map, List.getElem?_range hk]; rfl
    · intro j hj
      refine ⟨?_, ?_⟩
      · rw [hfl]
        exact flatten_fixtureAt 8 s.matchesArr hL k j hj
      · obtain ⟨f, _, hn⟩ := hdoc (k * 8 + j) (by omega)
        rw [hn]
        rfl
  · intro p hp120
    obtain ⟨f, hf, hn⟩ := hdoc p hp120
    refine ⟨f, _, hf, hn, rfl, rfl, rfl, ?_, ?_⟩
    · rw [hrd, List.countP_map]
      apply countP_eq_one_of_nodup (List.nodup_range 15) (p / 8)
        (List.mem_range.mpr (by omega))
      intro k hk
      simp only [Function.comp, decide_eq_true_eq]
      exact hmem p k hp120 (List.mem_range.mp hk)
    · intro rd hrdm hin
      rw [hrd] at hrdm
      obtain ⟨k, hk, rfl⟩ := List.mem_map.mp hrdm
      have := (hmem p k hp120 (List.mem_range.mp hk)).mp hin
      subst this
      rfl

/-- Witness of `rounds_partition_fixtures`: the world `sampleWorld`, whose documents get the
ids `1000 + k`. -/
theorem rounds_partition_fixtures_witness :
    sixteen.length = 16 ∧ sampleWorld.matchId = some (fun k => 1000 + k) ∧
    sampleWorld.roundInsert = true ∧
    (∀ p q, p < 120 → q < 120 → 1000 + p = 1000 + q → p = q) ∧
    ∃ s, buildSchedule sampleWorld sampleRequest sixteen monday = some s ∧
      s.matchesArr.length = 15 ∧ (∀ round ∈ s.matchesArr, round.length = 8) ∧
      s.flattenedMatches.length = 120 ∧ s.newMatches.length = 120 ∧ s.rounds.length = 15 ∧
      (∀ k, k < 15 → ∃ rd, s.rounds[k]? = some rd ∧ rd._id = sampleWorld.roundId k ∧
        rd.matchIds = (List.range 8).map (fun j => 1000 + (k * 8 + j)) ∧
        ∀ j, j < 8 → s.flattenedMatches[k * 8 + j]? = fixtureAt s.matchesArr k j ∧
          (s.newMatches[k * 8 + j]?).map (fun m => m._id) = some (1000 + (k * 8 + j))) ∧
      (∀ p, p < 120 → ∃ f m, s.flattenedMatches[p]? = some f ∧ s.newMatches[p]? = some m ∧
        m._id = 1000 + p ∧
        m.toFixture = { f with round := some (sampleWorld.roundId (p / 8)) } ∧
        m.roundWrites = 1 ∧
        s.rounds.countP (fun rd => decide (m._id ∈ rd.matchIds)) = 1 ∧
        ∀ rd ∈ s.rounds, m._id ∈ rd.matchIds → m.round = some rd._id) :=
  ⟨rfl, rfl, rfl, fun _ _ _ _ h => Nat.add_left_cancel h,
    rounds_partition_fixtures sampleWorld sampleRequest sixteen monday (fun k => 1000 + k) rfl
      rfl rfl (fun _ _ _ _ h => Nat.add_left_cancel h)⟩

/-- C3, counterexample: sixteen teams, start on Monday 2024-01-01, clock a week earlier,
first kickoff draw 17:00 and all later draws 11:00. The Round record of round 0 starts at
the start of slot 0 (17:00), later than the fixture of slot 2 (11:00 on the same day), so
its start is not the minimum over the fixtures of the round. -/
theorem round_start_not_minimum :
    ∃ s rd f a b, buildSchedule unevenKickoffWorld sampleRequest sixteen monday = some s ∧
      s.rounds[0]? = some rd ∧ fixtureAt s.matchesArr 0 2 = some f ∧
      f.startDate = some a ∧ rd.startDate = some b ∧ a < b := by
  obtain ⟨s, hs, hma, _⟩ := buildSchedule_spec unevenKickoffWorld sampleRequest sixteen monday
    (fun k => 1000 + k) (by decide) (by decide) rfl rfl
  obtain ⟨first, _, rd, hfirst, _, hrd, hstart, _⟩ :=
    buildSchedule_round unevenKickoffWorld sampleRequest sixteen monday (fun k => 1000 + k) s
      (by decide) (by decide) rfl hs 0 (by decide)
  have hsl := shuffleArray_length unevenKickoffWorld.draws sixteen
  obtain ⟨f0, h0, hs0, _⟩ := fixtureAt_valid unevenKickoffWorld.null
    unevenKickoffWorld.env sampleRequest.id sampleRequest.seasonId
    (shuffleArray unevenKickoffWorld.draws sixteen) monday hsl (by decide) 0 0 (by decide)
    (by decide)
  obtain ⟨f2, h2, hs2, _⟩ := fixtureAt_valid unevenKickoffWorld.null
    unevenKickoffWorld.env sampleRequest.id sampleRequest.seasonId
    (shuffleArray unevenKickoffWorld.draws sixteen) monday hsl (by decide) 0 2 (by decide)
    (by decide)
  rw [← hma] at h0 h2
  have hff : first = f0 := Option.some.inj (hfirst.symm.trans h0)
  refine ⟨s, rd, f2, _, kickoff unevenKickoffWorld.env 8 (anchorDay monday) 0 0, hs, hrd, h2,
    hs2, ?_, ?_⟩
  · rw [hstart, hff, hs0]
  · decide

/-- C3, amended: with sixteen teams and both bulk inserts succeeding, the Round record of
round `k` has `startDate` equal to the `startDate` of the first fixture of that round
(slot 0) and `endDate` equal to the `endDate` of its last fixture (slot 7). -/
theorem round_dates_first_last {α : Type} (w : World α) (req : Request) (teams : List α)
    (startDate : Moment) (matchId : Nat → Nat) (h16 : teams.length = 16)
    (hm : w.matchId = some matchId) (hr : w.roundInsert = true) (k : Nat) (hk : k < 15) :
    ∃ s first last rd, buildSchedule w req teams startDate = some s ∧
      fixtureAt s.matchesArr k 0 = some first ∧ fixtureAt s.matchesArr k 7 = some last ∧
      s.rounds[k]? = some rd ∧ rd.startDate = first.startDate ∧
      rd.endDate = last.endDate := by
  obtain ⟨s, hs, _⟩ :=
    buildSchedule_spec w req teams startDate matchId (by omega) (by omega) hm hr
  obtain ⟨first, last, rd, hfirst, hlast, hrd, hstart, hend, _⟩ :=
    buildSchedule_round w req teams startDate matchId s (by omega) (by omega) hm hs k
      (by omega)
  have e7 : teams.length / 2 - 1 = 7 := by omega
  rw [e7] at hlast
  exact ⟨s, first, last, rd, hs, hfirst, hlast, hrd, hstart, hend⟩

/-- Witness of `round_dates_first_last`: the world `sampleWorld`, round 0. -/
theorem round_dates_first_last_witness :
    sixteen.length = 16 ∧ sampleWorld.matchId = some (fun k => 1000 + k) ∧
    sampleWorld.roundInsert = true ∧ 0 < 15 ∧
    ∃ s first last rd, buildSchedule sampleWorld sampleRequest sixteen monday = some s ∧
      fixtureAt s.matchesArr 0 0 = some first ∧ fixtureAt s.matchesArr 0 7 = some last ∧
      s.rounds[0]? = some rd ∧ rd.startDate = first.startDate ∧
      rd.endDate = last.endDate :=
  ⟨rfl, rfl, rfl, by decide,
    round_dates_first_last sampleWorld sampleRequest sixteen monday (fun k => 1000 + k) rfl
      rfl rfl 0 (by decide)⟩

/-! ## Claims about the pairing -/

/-- C1: round-robin completeness and no repeat. For every list of distinct teams of even
length (2, 4, ..., in particular 16), every outcome of `shuffleArray` and every clock, start date and kickoff
draws, the fixtures of the pairing loop of `generateMatchSchedule` contain every unordered
pair of distinct teams as home and away team of exactly one fixture. -/
theorem round_robin_complete {α : Type} [DecidableEq α] (null : α) (env : Env)
    (league season : Nat) (teams : List α) (draws : (i : Nat) → Fin (i + 1))
    (startDate : Moment) (hnd : teams.Nodup) (heven : teams.length % 2 = 0) :
    ∀ a ∈ teams, ∀ b ∈ teams, a ≠ b →
      (pairingLoop null env league season (shuffleArray draws teams) startDate).flatten.countP
        (fun f => decide ((f.homeTeam = a ∧ f.awayTeam = b) ∨
          (f.homeTeam = b ∧ f.awayTeam = a))) = 1 := by
  intro a ha b hb hab
  have hperm := shuffleArray_perm draws teams
  have hS : (shuffleArray draws teams).length = 2 * (teams.length / 2) := by
    rw [hperm.length_eq]; omega
  have hc := pairingLoop_count_pair null env league season (shuffleArray draws teams)
    startDate (teams.length / 2) hS (hperm.nodup_iff.mpr hnd) a b
    (hperm.mem_iff.mpr ha) (hperm.mem_iff.mpr hb) hab
  rw [List.count, List.countP_map] at hc
  rw [← hc]
  apply List.countP_congr
  intro f _
  simp only [Function.comp, fixturePair, beq_iff_eq, decide_eq_true_eq, Sym2.eq_iff]

/-- Witness of `round_robin_complete`: the four teams `[1, 2, 3, 4]`. -/
theorem round_robin_complete_witness :
    ([1, 2, 3, 4] : List Nat).Nodup ∧ [1, 2, 3, 4].length % 2 = 0 ∧
    ∀ a ∈ [1, 2, 3, 4], ∀ b ∈ [1, 2, 3, 4], a ≠ b →
      (pairingLoop 0 earlyEnv 1 1 (shuffleArray (fun _ => 0) [1, 2, 3, 4])
          monday).flatten.countP
        (fun f => decide ((f.homeTeam = a ∧ f.awayTeam = b) ∨
          (f.homeTeam = b ∧ f.awayTeam = a))) = 1 :=
  ⟨by decide, by decide,
    round_robin_complete 0 earlyEnv 1 1 [1, 2, 3, 4] (fun _ => 0) monday (by decide)
      (by decide)⟩

/-- C2: every round is a perfect matching. For every list of distinct teams of even length,
every outcome of `shuffleArray` and every round `r` below `N - 1`: round `r` has `N / 2`
fixtures, each team is home or away team of exactly one of them, no fixture has equal home
and away team, and the array `teamss` after the rotation that ends round `r` is a
permutation of the teams whose first element is the one it had before the loop. -/
theorem each_round_perfect_matching {α : Type} [DecidableEq α] (null : α) (env : Env)
    (league season : Nat) (teams : List α) (draws : (i : Nat) → Fin (i + 1))
    (startDate : Moment) (hnd : teams.Nodup) (heven : teams.length % 2 = 0) (r : Nat)
    (hr : r < teams.length - 1) :
    (∃ round,
      (pairingLoop null env league season (shuffleArray draws teams) startDate)[r]? =
        some round ∧
      round.length = teams.length / 2 ∧
      (∀ t ∈ teams,
        round.countP (fun f => decide (f.homeTeam = t ∨ f.awayTeam = t)) = 1) ∧
      (∀ f ∈ round, f.homeTeam ≠ f.awayTeam)) ∧
    (pairingState null env league season (shuffleArray draws teams) startDate
      (r + 1)).teamss.Perm teams ∧
    (pairingState null env league season (shuffleArray draws teams) startDate
      (r + 1)).teamss.head? = (shuffleArray draws teams).head? := by
  have hperm := shuffleArray_perm draws teams
  have hlen : (shuffleArray draws teams).length = teams.length := hperm.length_eq
  have hpad : padOdd null (shuffleArray draws teams) = shuffleArray draws teams :=
    padOdd_of_even null _ (by omega)
  have hT : (Nat.iterate rotate r (shuffleArray draws teams)).Perm teams :=
    (iterate_rotate_perm _ r).trans hperm
  have hTl : (Nat.iterate rotate r (shuffleArray draws teams)).length = teams.length :=
    hT.length_eq
  have hTnd : (Nat.iterate rotate r (shuffleArray draws teams)).Nodup := hT.nodup_iff.mpr hnd
  refine ⟨⟨_, pairingLoop_getElem? null env league season _ startDate r
    (by rw [hpad, hlen]; exact hr), ?_, ?_, ?_⟩, ?_, ?_⟩
  · simp [hpad, hlen]
  · intro t ht
    rw [pairingState_teamss, hpad, hlen, ← hTl]
    exact round_countP_team null env league season _ _ r hTnd (by omega) t
      (hT.mem_iff.mpr ht)
  · intro f hf
    obtain ⟨i, hi, rfl⟩ := List.mem_map.mp hf
    rw [List.mem_range, hpad, hlen] at hi
    rw [pairingState_teamss, hpad, hlen, ← hTl]
    exact round_home_ne_away null env league season _ _ r i hTnd (by omega) (by omega)
  · rw [pairingState_teamss, hpad]
    exact (iterate_rotate_perm _ (r + 1)).trans hperm
  · rw [pairingState_teamss, hpad, iterate_rotate_head?]

/-- Witness of `each_round_perfect_matching`: the four teams `[1, 2, 3, 4]`, round 0. -/
theorem each_round_perfect_matching_witness :
    ([1, 2, 3, 4] : List Nat).Nodup ∧ [1, 2, 3, 4].length % 2 = 0 ∧
    0 < [1, 2, 3, 4].length - 1 ∧
    ((∃ round,
      (pairingLoop 0 earlyEnv 1 1 (shuffleArray (fun _ => 0) [1, 2, 3, 4]) monday)[0]? =
        some round ∧
      round.length = [1, 2, 3, 4].length / 2 ∧
      (∀ t ∈ [1, 2, 3, 4],
        round.countP (fun f => decide (f.homeTeam = t ∨ f.awayTeam = t)) = 1) ∧
      (∀ f ∈ round, f.homeTeam ≠ f.awayTeam)) ∧
    (pairingState 0 earlyEnv 1 1 (shuffleArray (fun _ => 0) [1, 2, 3, 4]) monday
      (0 + 1)).teamss.Perm [1, 2, 3, 4] ∧
    (pairingState 0 earlyEnv 1 1 (shuffleArray (fun _ => 0) [1, 2, 3, 4]) monday
      (0 + 1)).teamss.head? = (shuffleArray (fun _ => 0) [1, 2, 3, 4]).head?) :=
  ⟨by decide, by decide, by decide,
    each_round_perfect_matching 0 earlyEnv 1 1 [1, 2, 3, 4] (fun _ => 0) monday (by decide)
      (by decide) 0 (by decide)⟩

end Futbolist
